import Mathlib

/-!
Verification development for the Brand-Identity-Inference backend.

The Python sources under `backend/app` are shallowly embedded here:
pure functions become Lean functions over `List Char` / `String`, `ℚ`
models Python numbers, `Option` models `None`/missing dict keys, and
`Except Unit` models a raised exception.  External collaborators
(cssutils parsing, BeautifulSoup DOM queries, urllib URL resolution,
OpenCV contour search) are abstracted as structured inputs carrying
exactly the data the embedded code reads from them; everything the
repository's own code computes is translated literally.

Python's `str.lower` is modelled for the ASCII range (all inputs the
system manipulates — hex colors, CSS keywords, URLs — are ASCII), and
regex character classes are modelled as explicit character lists.
-/

set_option maxRecDepth 20000

/-- Whitespace characters of Python's `str.strip` / regex `\s` (ASCII range). -/
def pyWsChars : List Char := [' ', '\t', '\n', '\r', Char.ofNat 11, Char.ofNat 12]

/-- Decide whether a character is Python whitespace. -/
def isPyWs (c : Char) : Bool := pyWsChars.contains c

/-- ASCII lower-casing of a single character, the fragment of Python's
`str.lower` exercised by this code base. -/
def asciiLowerChar (c : Char) : Char :=
  match c with
  | 'A' => 'a' | 'B' => 'b' | 'C' => 'c' | 'D' => 'd' | 'E' => 'e' | 'F' => 'f'
  | 'G' => 'g' | 'H' => 'h' | 'I' => 'i' | 'J' => 'j' | 'K' => 'k' | 'L' => 'l'
  | 'M' => 'm' | 'N' => 'n' | 'O' => 'o' | 'P' => 'p' | 'Q' => 'q' | 'R' => 'r'
  | 'S' => 's' | 'T' => 't' | 'U' => 'u' | 'V' => 'v' | 'W' => 'w' | 'X' => 'x'
  | 'Y' => 'y' | 'Z' => 'z'
  | c => c

/-- Python `s.lower()` (ASCII fragment). -/
def pyLower (s : String) : String := ⟨s.data.map asciiLowerChar⟩

/-- Drop matching characters from the end of a list. -/
def dropWhileEnd (p : Char → Bool) (l : List Char) : List Char :=
  (l.reverse.dropWhile p).reverse

/-- Python `s.strip()` on a character list. -/
def pyStripL (l : List Char) : List Char :=
  dropWhileEnd isPyWs (l.dropWhile isPyWs)

/-- Python `s.strip(chars)`: remove any of the given characters from both ends. -/
def pyStripCharsL (cs : List Char) (l : List Char) : List Char :=
  dropWhileEnd (cs.contains ·) (l.dropWhile (cs.contains ·))

/-- Test whether `sub` occurs inside `l` (helper for Python's `in`). -/
def hasSubAux (sub : List Char) : List Char → Bool
  | [] => sub.isEmpty
  | c :: rest => sub.isPrefixOf (c :: rest) || hasSubAux sub rest

/-- Python's substring test `sub in s` (empty `sub` is always contained). -/
def pyIn (sub s : String) : Bool :=
  sub.data.isEmpty || hasSubAux sub.data s.data

/-- Python truthiness of an optional string (`None` and `""` are falsy). -/
def optStrTruthy : Option String → Bool
  | none => false
  | some s => !s.data.isEmpty

/-- Characters of the regex class `[0-9]` (`\d`, ASCII). -/
def digitChars : List Char := "0123456789".data

/-- Characters of the regex class `[0-9a-fA-F]`. -/
def hexChars : List Char := "0123456789abcdefABCDEF".data

/-- Lower-case hexadecimal digits. -/
def lowerHexChars : List Char := "0123456789abcdef".data

/-- Decide membership in the regex class `[0-9a-fA-F]`. -/
def isHexChar (c : Char) : Bool := hexChars.contains c

/-- Decide whether a character is a lower-case hex digit. -/
def isLowerHexChar (c : Char) : Bool := lowerHexChars.contains c

/-- Decide membership in the regex class `[0-9]`. -/
def isDigitChar (c : Char) : Bool := digitChars.contains c

/-- Decide membership in the regex class `[a-z]`. -/
def isAsciiLowerAlpha (c : Char) : Bool := 'a' ≤ c && c ≤ 'z'

/-- Decide membership in the regex class `[A-Z]`. -/
def isAsciiUpperAlpha (c : Char) : Bool := 'A' ≤ c && c ≤ 'Z'

/-- Word characters for the regex boundary `\b` (ASCII `[A-Za-z0-9_]`). -/
def isWordChar (c : Char) : Bool :=
  isDigitChar c || isAsciiLowerAlpha c || isAsciiUpperAlpha c || c = '_'

/-- Numeric value of a hex digit. -/
def hexDigitVal (c : Char) : ℕ :=
  match c with
  | '0' => 0 | '1' => 1 | '2' => 2 | '3' => 3 | '4' => 4
  | '5' => 5 | '6' => 6 | '7' => 7 | '8' => 8 | '9' => 9
  | 'a' => 10 | 'b' => 11 | 'c' => 12 | 'd' => 13 | 'e' => 14 | 'f' => 15
  | 'A' => 10 | 'B' => 11 | 'C' => 12 | 'D' => 13 | 'E' => 14 | 'F' => 15
  | _ => 0

/-- Lower-case hex digit for a value below 16. -/
def hexDigitChar (n : ℕ) : Char :=
  match n with
  | 0 => '0' | 1 => '1' | 2 => '2' | 3 => '3' | 4 => '4'
  | 5 => '5' | 6 => '6' | 7 => '7' | 8 => '8' | 9 => '9'
  | 10 => 'a' | 11 => 'b' | 12 => 'c' | 13 => 'd' | 14 => 'e' | 15 => 'f'
  | _ => '?'

/-- Parse a nonempty digit string as a natural number (Python `int`). -/
def digitsToNat (l : List Char) : ℕ :=
  l.foldl (fun acc c => acc * 10 + hexDigitVal c) 0

/-- Parse two hex characters, `none` on a non-hex character
(models `int(s, 16)` raising `ValueError`). -/
def parseHexPair (a b : Char) : Option ℕ :=
  if isHexChar a && isHexChar b then some (hexDigitVal a * 16 + hexDigitVal b) else none

/-- Python `float` applied to a match of `[\d.]+`: accepts an integer part,
an optional dot and fraction, rejects the bare dot and multiple dots. -/
def parseFloatQ (l : List Char) : Option ℚ :=
  match l.splitOn '.' with
  | [ip] => if ip.isEmpty then none else some (digitsToNat ip : ℚ)
  | [ip, fp] =>
      if ip.isEmpty && fp.isEmpty then none
      else some ((digitsToNat ip : ℚ) + (digitsToNat fp : ℚ) / ((10 : ℚ) ^ fp.length))
  | _ => none

/-- Python `int()` truncation toward zero on a rational. -/
def pyTrunc (q : ℚ) : ℤ :=
  if 0 ≤ q then ⌊q⌋ else -⌊-q⌋

/-- Python `round(q, 2)` on a rational: round half to even at two decimals. -/
def pyRound2 (q : ℚ) : ℚ :=
  let x := q * 100
  let n := ⌊x⌋
  let r := x - (n : ℚ)
  let m : ℤ :=
    if r < 1/2 then n
    else if r > 1/2 then n + 1
    else if n % 2 = 0 then n else n + 1
  (m : ℚ) / 100

/-! ## `extractors/colors.py`: color normalization helpers -/

/-- Sentinel returned by `normalize_hex` for malformed input. -/
def hexSentinel : String := "#000000"

/-- Lower-case, strip whitespace and strip leading `#` — the preprocessing
chain of `normalize_hex`. -/
def strippedHexBody (l : List Char) : List Char :=
  (pyStripL (l.map asciiLowerChar)).dropWhile (· = '#')

/-- Body of `normalize_hex` after the empty-input guard: lower-case, strip
whitespace, strip leading `#`, then dispatch on the remaining length
(3 → double each digit, 4 → drop alpha and double, 8 → drop alpha,
6 → keep, anything else → sentinel). -/
def normalizeHexCore (l : List Char) : List Char :=
  let b := strippedHexBody l
  if b.length = 3 then '#' :: b.flatMap (fun c => [c, c])
  else if b.length = 4 then '#' :: (b.take 3).flatMap (fun c => [c, c])
  else if b.length = 8 then '#' :: b.take 6
  else if b.length ≠ 6 then hexSentinel.data
  else '#' :: b

/-- Embedding of `colors.normalize_hex`. -/
def normalize_hex (s : String) : String :=
  if s.data.isEmpty then hexSentinel else ⟨normalizeHexCore s.data⟩

/-- Clamp an integer color channel into `[0, 255]` (from `colors.rgb_to_hex`). -/
def clamp255 (n : ℤ) : ℕ := (max 0 (min 255 n)).toNat

/-- Two-digit lower-case hex rendering of a channel value `≤ 255`. -/
def toHex2 (n : ℕ) : List Char := [hexDigitChar (n / 16), hexDigitChar (n % 16)]

/-- Embedding of `colors.rgb_to_hex`: clamp each channel and format `#rrggbb`. -/
def rgb_to_hex (r g b : ℤ) : String :=
  ⟨'#' :: (toHex2 (clamp255 r) ++ toHex2 (clamp255 g) ++ toHex2 (clamp255 b))⟩

/-- Embedding of `colors.hex_to_rgb`: normalize, strip `#`, parse three hex
pairs; any parse failure yields `(0, 0, 0)` (the `except` branch). -/
def hex_to_rgb (s : String) : ℕ × ℕ × ℕ :=
  let body := (normalize_hex s).data.dropWhile (· = '#')
  match body with
  | a :: b :: c :: d :: e :: f :: _ =>
      match parseHexPair a b, parseHexPair c d, parseHexPair e f with
      | some r, some g, some bl => (r, g, bl)
      | _, _, _ => (0, 0, 0)
  | _ => (0, 0, 0)

/-- The `_v` helper of Python's `colorsys.hls_to_rgb`, over exact rationals. -/
def colorsysV (m1 m2 hue : ℚ) : ℚ :=
  let hue := hue - ⌊hue⌋
  if hue < 1/6 then m1 + (m2 - m1) * hue * 6
  else if hue < 1/2 then m2
  else if hue < 2/3 then m1 + (m2 - m1) * (2/3 - hue) * 6
  else m1

/-- Python's `colorsys.hls_to_rgb`, over exact rationals. -/
def hlsToRgb (h l s : ℚ) : ℚ × ℚ × ℚ :=
  if s = 0 then (l, l, l)
  else
    let m2 := if l ≤ 1/2 then l * (1 + s) else l + s - l * s
    let m1 := 2 * l - m2
    (colorsysV m1 m2 (h + 1/3), colorsysV m1 m2 h, colorsysV m1 m2 (h - 1/3))

/-- Embedding of `colors.hsl_to_hex`: scale, convert through HLS, truncate
each channel to an integer and format through `rgb_to_hex`. -/
def hsl_to_hex (h s l : ℚ) : String :=
  let h := h / 360
  let s := s / 100
  let l := l / 100
  let rgb := hlsToRgb h l s
  rgb_to_hex (pyTrunc (rgb.1 * 255)) (pyTrunc (rgb.2.1 * 255)) (pyTrunc (rgb.2.2 * 255))

/-- Python's `colorsys.rgb_to_hls`, returning only `(lightness, saturation)`
(the hue is never read by the extractor). -/
def rgbToHlsLS (r g b : ℚ) : ℚ × ℚ :=
  let maxc := max r (max g b)
  let minc := min r (min g b)
  let l := (minc + maxc) / 2
  if minc = maxc then (l, 0)
  else if l ≤ 1/2 then (l, (maxc - minc) / (maxc + minc))
  else (l, (maxc - minc) / (2 - maxc - minc))

/-- Embedding of `colors.get_color_saturation`. -/
def get_color_saturation (s : String) : ℚ :=
  let rgb := hex_to_rgb s
  (rgbToHlsLS ((rgb.1 : ℚ) / 255) ((rgb.2.1 : ℚ) / 255) ((rgb.2.2 : ℚ) / 255)).2

/-- Embedding of `colors.get_color_lightness`. -/
def get_color_lightness (s : String) : ℚ :=
  let rgb := hex_to_rgb s
  (rgbToHlsLS ((rgb.1 : ℚ) / 255) ((rgb.2.1 : ℚ) / 255) ((rgb.2.2 : ℚ) / 255)).1

/-- The `NEUTRAL_COLORS` deny-list of `colors.py`. -/
def NEUTRAL_COLORS : List String :=
  ["#000000", "#ffffff", "#000", "#fff",
   "#111111", "#222222", "#333333", "#444444", "#555555",
   "#666666", "#777777", "#888888", "#999999", "#aaaaaa",
   "#bbbbbb", "#cccccc", "#dddddd", "#eeeeee", "#f0f0f0",
   "#f5f5f5", "#fafafa", "transparent", "inherit"]

/-- Embedding of `colors.is_neutral`: deny-list membership, else all three
channel pairs within 15 units. -/
def is_neutral (s : String) : Bool :=
  let c := normalize_hex s
  if NEUTRAL_COLORS.contains c then true
  else
    let rgb := hex_to_rgb c
    let r : ℤ := rgb.1
    let g : ℤ := rgb.2.1
    let b : ℤ := rgb.2.2
    (r - g).natAbs < 15 && (g - b).natAbs < 15 && (r - b).natAbs < 15

/-! ## Regex matchers of `colors.py`

`HEX_PATTERN`, `RGB_PATTERN` and `HSL_PATTERN` are fixed regexes; each is
modelled by a direct scanner with `re.findall` semantics (left-to-right,
non-overlapping, advance one character on failure).  The scanners recurse on
a fuel initialized to the input length; every successful match consumes at
least one character, so the fuel never runs out before the input does. -/

/-- Skip a run of regex `\s*`. -/
def skipWs (l : List Char) : List Char := l.dropWhile isPyWs

/-- Expect one literal character. -/
def expectChar (c : Char) : List Char → Option (List Char)
  | [] => none
  | d :: rest => if d = c then some rest else none

/-- Expect a case-insensitive literal word. -/
def stripCI : List Char → List Char → Option (List Char)
  | [], l => some l
  | _, [] => none
  | w :: ws, c :: rest => if asciiLowerChar c = w then stripCI ws rest else none

/-- Take a nonempty run of `\d`. -/
def takeDigits (l : List Char) : Option (List Char × List Char) :=
  let d := l.takeWhile isDigitChar
  if d.isEmpty then none else some (d, l.drop d.length)

/-- Take a nonempty run of `[\d.]`. -/
def takeNumDot (l : List Char) : Option (List Char × List Char) :=
  let d := l.takeWhile (fun c => isDigitChar c || c = '.')
  if d.isEmpty then none else some (d, l.drop d.length)

/-- Try the optional alpha component `(?:\s*,\s*[\d.]+)?` of the color
patterns: consume it when it matches, otherwise leave the input unchanged. -/
def tryAlphaGroup (l : List Char) : List Char :=
  match (do
    let l1 := skipWs l
    let l2 ← expectChar ',' l1
    let l3 := skipWs l2
    let p ← takeNumDot l3
    pure p.2 : Option (List Char)) with
  | some l4 => l4
  | none => l

/-- Match `RGB_PATTERN` (with `re.IGNORECASE`) at the current position,
returning the three digit groups as naturals plus the rest of the input. -/
def matchRgbAt (l : List Char) : Option ((ℕ × ℕ × ℕ) × List Char) := do
  let l ← stripCI "rgb".data l
  let l := match l with
    | 'a' :: r => r
    | 'A' :: r => r
    | r => r
  let l := skipWs l
  let l ← expectChar '(' l
  let l := skipWs l
  let (d1, l) ← takeDigits l
  let l := skipWs l
  let l ← expectChar ',' l
  let l := skipWs l
  let (d2, l) ← takeDigits l
  let l := skipWs l
  let l ← expectChar ',' l
  let l := skipWs l
  let (d3, l) ← takeDigits l
  let l := tryAlphaGroup l
  let l := skipWs l
  let l ← expectChar ')' l
  pure ((digitsToNat d1, digitsToNat d2, digitsToNat d3), l)

/-- Match `HSL_PATTERN` (with `re.IGNORECASE`) at the current position,
returning the three `[\d.]+` groups plus the rest of the input. -/
def matchHslAt (l : List Char) :
    Option ((List Char × List Char × List Char) × List Char) := do
  let l ← stripCI "hsl".data l
  let l := match l with
    | 'a' :: r => r
    | 'A' :: r => r
    | r => r
  let l := skipWs l
  let l ← expectChar '(' l
  let l := skipWs l
  let (g1, l) ← takeNumDot l
  let l := skipWs l
  let l ← expectChar ',' l
  let l := skipWs l
  let (g2, l) ← takeNumDot l
  let l ← expectChar '%' l
  let l := skipWs l
  let l ← expectChar ',' l
  let l := skipWs l
  let (g3, l) ← takeNumDot l
  let l ← expectChar '%' l
  let l := tryAlphaGroup l
  let l := skipWs l
  let l ← expectChar ')' l
  pure ((g1, g2, g3), l)

/-- Scanner for `re.findall(HEX_PATTERN, ...)`: a `#` followed by a maximal
hex-digit run of length 3, 4, 6 or 8 and then a `\b` word boundary. -/
def hexScanAux : ℕ → List Char → List (List Char)
  | 0, _ => []
  | _, [] => []
  | fuel + 1, c :: rest =>
    if c = '#' then
      let run := rest.takeWhile isHexChar
      let n := run.length
      if (n = 3 || n = 4 || n = 6 || n = 8) &&
         (match rest.drop n with
          | [] => true
          | d :: _ => !isWordChar d) then
        ('#' :: run) :: hexScanAux fuel (rest.drop n)
      else hexScanAux fuel rest
    else hexScanAux fuel rest

/-- All `HEX_PATTERN` matches of a string (each including the `#`). -/
def findHexMatches (s : String) : List String :=
  (hexScanAux s.data.length s.data).map fun l => ⟨l⟩

/-- Scanner for `re.findall(RGB_PATTERN, ..., re.IGNORECASE)`. -/
def rgbScanAux : ℕ → List Char → List (ℕ × ℕ × ℕ)
  | 0, _ => []
  | _, [] => []
  | fuel + 1, c :: rest =>
    match matchRgbAt (c :: rest) with
    | some (t, l2) => t :: rgbScanAux fuel l2
    | none => rgbScanAux fuel rest

/-- All `RGB_PATTERN` matches (triples of digit groups, as naturals). -/
def findRgbMatches (s : String) : List (ℕ × ℕ × ℕ) :=
  rgbScanAux s.data.length s.data

/-- Scanner for `re.findall(HSL_PATTERN, ..., re.IGNORECASE)`. -/
def hslScanAux : ℕ → List Char → List (List Char × List Char × List Char)
  | 0, _ => []
  | _, [] => []
  | fuel + 1, c :: rest =>
    match matchHslAt (c :: rest) with
    | some (t, l2) => t :: hslScanAux fuel l2
    | none => hslScanAux fuel rest

/-- All `HSL_PATTERN` matches (triples of `[\d.]+` groups). -/
def findHslMatches (s : String) : List (List Char × List Char × List Char) :=
  hslScanAux s.data.length s.data

/-! ## `extractors/colors.py`: the `ColorExtractor`

A CSS block is modelled as its raw text together with the rule list that
`cssutils.parseString` recovers from it (`parsed = none` models a parse
failure, whose `except` silently skips the structured pass).  The
extractor's five context tallies and the global tally are insertion-ordered
association lists, exactly mirroring Python dict semantics; each processed
color literal becomes one `ColorEvent`, and the run folds the event stream
of all blocks in order. -/

/-- One style rule as recovered by the external CSS parser. -/
structure CssRule where
  selector : String
  props : List (String × String)
deriving DecidableEq

/-- One CSS text block plus its external parse result. -/
structure CssBlock where
  text : String
  parsed : Option (List CssRule)
deriving DecidableEq

/-- Role buckets of `ColorExtractor.context_colors`. -/
inductive ColorBucket
  | primary | secondary | background | accent | neutrals
deriving DecidableEq

/-- One recorded color occurrence: the bucket it lands in (`none` when
`_classify_context` returns `None`) and the normalized color. -/
structure ColorEvent where
  bucket : Option ColorBucket
  color : String
deriving DecidableEq

/-- Insertion-ordered frequency map (Python `defaultdict(int)`). -/
abbrev Tally := List (String × ℕ)

/-- Increment a tally entry in place (Python dict update semantics: keys are
unique, a new key is appended at the end). -/
def tallyAdd : Tally → String → Tally
  | [], c => [(c, 1)]
  | p :: rest, c =>
      if p.1 = c then (p.1, p.2 + 1) :: rest else p :: tallyAdd rest c

/-- Total recorded frequency of a color in a tally. -/
def tallyCount (t : Tally) (c : String) : ℕ :=
  (t.map fun p => if p.1 = c then p.2 else 0).sum

/-- Embedding of `ColorExtractor._classify_context`. -/
def classify_context (selector propName : String) : Option ColorBucket :=
  let s := pyLower selector
  let p := pyLower propName
  if (["button", ".btn", "[type=submit]", ".cta", "submit"].any fun x => pyIn x s) &&
     (p = "background" || p = "background-color" || p = "border-color") then
    some .primary
  else if ([":link", ":visited", "a:", " a", ".link"].any fun x => pyIn x s) &&
          p = "color" then
    some .secondary
  else if [":hover", ":focus", ":active"].any fun x => pyIn x s then
    some .accent
  else if p = "background" || p = "background-color" then
    if ["body", "html", ".bg-", "main", ".wrapper", ".container", ":root"].any
        fun x => pyIn x s then
      some .background
    else some .primary
  else if p = "color" then
    if ["h1", "h2", ".heading", ".title"].any fun x => pyIn x s then some .secondary
    else some .primary
  else if pyIn "border" p then some .accent
  else none

/-- Embedding of `ColorExtractor._extract_colors_from_value`: hex matches,
then rgb matches, then hsl matches whose groups parse as floats. -/
def extract_colors_from_value (value : String) : List String :=
  (findHexMatches value).map normalize_hex
  ++ (findRgbMatches value).map (fun t => rgb_to_hex t.1 t.2.1 t.2.2)
  ++ (findHslMatches value).filterMap (fun t =>
      match parseFloatQ t.1, parseFloatQ t.2.1, parseFloatQ t.2.2 with
      | some h, some s, some l => some (hsl_to_hex h s l)
      | _, _, _ => none)

/-- Events of `ColorExtractor._process_property` for one declaration. -/
def processPropertyEvents (selector propName value : String) : List ColorEvent :=
  (extract_colors_from_value value).map fun c0 =>
    let c := normalize_hex c0
    if is_neutral c then ⟨some .neutrals, c⟩
    else ⟨classify_context selector propName, c⟩

/-- Events of `ColorExtractor._regex_extract` for one raw block. -/
def regexExtractEvents (text : String) : List ColorEvent :=
  ((findHexMatches text).map fun m =>
    let c := normalize_hex m
    if is_neutral c then (⟨some .neutrals, c⟩ : ColorEvent) else ⟨some .primary, c⟩)
  ++ ((findRgbMatches text).map fun t =>
    let c := rgb_to_hex t.1 t.2.1 t.2.2
    if is_neutral c then (⟨some .neutrals, c⟩ : ColorEvent) else ⟨some .primary, c⟩)

/-- Events of `ColorExtractor._parse_css` for one block: the regex pass,
then the structured pass over the parsed rules (skipped on parse failure). -/
def parseCssEvents (b : CssBlock) : List ColorEvent :=
  regexExtractEvents b.text ++
  match b.parsed with
  | none => []
  | some rules =>
      rules.flatMap fun r =>
        r.props.flatMap fun pr => processPropertyEvents r.selector pr.1 pr.2

/-- Accumulator state of a `ColorExtractor` instance. -/
structure ColorState where
  primary : Tally := []
  secondary : Tally := []
  background : Tally := []
  accent : Tally := []
  neutrals : Tally := []
  all_colors : Tally := []
deriving DecidableEq

/-- Record one color occurrence in the state. -/
def applyColorEvent (st : ColorState) (e : ColorEvent) : ColorState :=
  let st := { st with all_colors := tallyAdd st.all_colors e.color }
  match e.bucket with
  | some .primary => { st with primary := tallyAdd st.primary e.color }
  | some .secondary => { st with secondary := tallyAdd st.secondary e.color }
  | some .background => { st with background := tallyAdd st.background e.color }
  | some .accent => { st with accent := tallyAdd st.accent e.color }
  | some .neutrals => { st with neutrals := tallyAdd st.neutrals e.color }
  | none => st

/-- Event stream of `ColorExtractor.extract`'s parsing loop
(blocks that are empty strings are skipped by `if css_text:`). -/
def colorEvents (blocks : List CssBlock) : List ColorEvent :=
  (blocks.filter fun b => !b.text.data.isEmpty).flatMap parseCssEvents

/-- State after parsing all blocks. -/
def runColorState (blocks : List CssBlock) : ColorState :=
  (colorEvents blocks).foldl applyColorEvent {}

/-- Stable insertion placing `x` after every element not below it. -/
def insertDescBy (lt : α → α → Bool) (x : α) : List α → List α
  | [] => [x]
  | y :: ys => if lt y x then x :: y :: ys else y :: insertDescBy lt x ys

/-- Python's stable `sorted(..., reverse=True)`: descending by the
comparator, ties kept in original order. -/
def sortDescBy (lt : α → α → Bool) (l : List α) : List α :=
  l.foldl (fun acc x => insertDescBy lt x acc) []

/-- Lexicographic order on the `(frequency, saturation)` sort key. -/
def countSatLt (a b : ℕ × ℚ) : Bool :=
  a.1 < b.1 || (a.1 = b.1 && a.2 < b.2)

/-- Rank a tally by `(frequency, saturation)` descending, stable. -/
def rankColors (t : Tally) : Tally :=
  sortDescBy
    (fun a b =>
      countSatLt (a.2, get_color_saturation a.1) (b.2, get_color_saturation b.1)) t

/-- Output record of `ColorExtractor._analyze_colors`. -/
structure ColorsResult where
  primary : Option String := none
  secondary : Option String := none
  background : Option String := none
  accent : Option String := none
  neutrals : List String := []
  all_colors : List (String × ℕ) := []
deriving DecidableEq

/-- Per-role winner: top of the ranking, with the background special case
preferring light (`lightness > 0.5`) then dark (`< 0.3`) candidates. -/
def pickBucket (t : Tally) (isBackground : Bool) : Option String :=
  if t.isEmpty then none
  else
    let sorted := rankColors t
    let best := sorted.head?.map (·.1)
    if isBackground then
      let light := sorted.filter fun p => get_color_lightness p.1 > 1/2
      match light.head? with
      | some p => some p.1
      | none =>
          let dark := sorted.filter fun p => get_color_lightness p.1 < 3/10
          match dark.head? with
          | some p => some p.1
          | none => best
    else best

/-- Embedding of `ColorExtractor._analyze_colors`. -/
def analyze_colors (st : ColorState) : ColorsResult :=
  let primary := pickBucket st.primary false
  let secondary := pickBucket st.secondary false
  let background := pickBucket st.background true
  let accent := pickBucket st.accent false
  let primary :=
    match primary with
    | some c => some c
    | none =>
        let nonNeutral := st.all_colors.filter fun p => !is_neutral p.1
        (rankColors nonNeutral).head?.map (·.1)
  let background :=
    match background with
    | some c => some c
    | none => some "#ffffff"
  { primary := primary
    secondary := secondary
    background := background
    accent := accent
    neutrals := ((sortDescBy (fun a b => a.2 < b.2) st.neutrals).take 5).map (·.1)
    all_colors := (sortDescBy (fun a b => a.2 < b.2) st.all_colors).take 20 }

/-- Embedding of `ColorExtractor.extract`. -/
def ColorExtractor.extract (blocks : List CssBlock) : ColorsResult :=
  analyze_colors (runColorState blocks)

/-! ## Claim C5: behavior of color-literal normalization -/

/-- Specification-side predicate: a well-formed CSS hex literal, `#` followed
by 3, 4, 6 or 8 hex digits (the shapes `HEX_PATTERN` accepts). -/
def specIsHexLiteral (s : String) : Bool :=
  match s.data with
  | c :: body =>
      c = '#' && body.all isHexChar &&
      (body.length = 3 || body.length = 4 || body.length = 6 || body.length = 8)
  | [] => false

/-- Specification-side predicate: the string is an `rgb(...)`-shaped literal. -/
def specIsRgbLiteral (s : String) : Bool :=
  "rgb".data.isPrefixOf (pyLower s).data

/-- Specification-side predicate: the string is an `hsl(...)`-shaped literal. -/
def specIsHslLiteral (s : String) : Bool :=
  "hsl".data.isPrefixOf (pyLower s).data

/-- The shape the claim promises: `#` followed by exactly six lower-case
hex digits. -/
def isSixHexLower (s : String) : Bool :=
  match s.data with
  | c :: body => c = '#' && body.length = 6 && body.all isLowerHexChar
  | [] => false

lemma lowerHex_of_hex {c : Char} (h : isHexChar c = true) :
    isLowerHexChar (asciiLowerChar c) = true := by
  have hall : hexChars.all (fun c => isLowerHexChar (asciiLowerChar c)) = true := by decide
  have hmem : c ∈ hexChars := by
    simpa [isHexChar, List.contains] using h
  exact List.all_eq_true.mp hall c hmem

lemma lowerHex_not_ws {c : Char} (h : isLowerHexChar c = true) : isPyWs c = false := by
  have hall : lowerHexChars.all (fun c => !isPyWs c) = true := by decide
  have hmem : c ∈ lowerHexChars := by simpa [isLowerHexChar, List.contains] using h
  simpa using List.all_eq_true.mp hall c hmem

lemma lowerHex_ne_hash {c : Char} (h : isLowerHexChar c = true) : (c = '#') = False := by
  have hall : lowerHexChars.all (fun c => !(c = '#')) = true := by decide
  have hmem : c ∈ lowerHexChars := by simpa [isLowerHexChar, List.contains] using h
  simpa using List.all_eq_true.mp hall c hmem

lemma dropWhile_of_all_not {p : Char → Bool} {l : List Char}
    (h : ∀ c ∈ l, p c = false) : l.dropWhile p = l := by
  cases l with
  | nil => rfl
  | cons c r =>
      have : p c = false := h c (List.mem_cons_self c r)
      simp [List.dropWhile_cons, this]

lemma pyStripL_of_all_not {l : List Char}
    (h : ∀ c ∈ l, isPyWs c = false) : pyStripL l = l := by
  unfold pyStripL dropWhileEnd
  rw [dropWhile_of_all_not h]
  rw [dropWhile_of_all_not (fun c hc => h c (List.mem_reverse.mp hc))]
  exact List.reverse_reverse l

lemma strippedHexBody_of_hash_hex {body : List Char}
    (hhex : ∀ c ∈ body, isHexChar c = true) :
    strippedHexBody ('#' :: body) = body.map asciiLowerChar := by
  unfold strippedHexBody
  have hmap : ('#' :: body).map asciiLowerChar = '#' :: body.map asciiLowerChar := by
    simp [asciiLowerChar]
  rw [hmap]
  have hlow : ∀ c ∈ body.map asciiLowerChar, isLowerHexChar c = true := by
    intro c hc
    rcases List.mem_map.mp hc with ⟨d, hd, rfl⟩
    exact lowerHex_of_hex (hhex d hd)
  have hniws : ∀ c ∈ '#' :: body.map asciiLowerChar, isPyWs c = false := by
    intro c hc
    rcases List.mem_cons.mp hc with rfl | hc
    · decide
    · exact lowerHex_not_ws (hlow c hc)
  rw [pyStripL_of_all_not hniws]
  rw [List.dropWhile_cons]
  simp only [decide_True, if_pos rfl]
  exact dropWhile_of_all_not (fun c hc => by
    have := lowerHex_ne_hash (hlow c hc)
    simp [this])

lemma length_flatMap_dup (l : List Char) :
    (l.flatMap fun c => [c, c]).length = 2 * l.length := by
  induction l with
  | nil => rfl
  | cons c r ih => simp [List.flatMap_cons, ih]; omega

lemma all_flatMap_dup {p : Char → Bool} {l : List Char}
    (h : ∀ c ∈ l, p c = true) : ∀ c ∈ (l.flatMap fun c => [c, c]), p c = true := by
  intro c hc
  rcases List.mem_flatMap.mp hc with ⟨d, hd, hcd⟩
  have hcd2 : c = d := by
    rcases List.mem_cons.mp hcd with h1 | h1
    · exact h1
    · simpa using h1
  subst hcd2
  exact h c hd

lemma lowerHexDigitChar {n : ℕ} (hn : n ≤ 15) :
    isLowerHexChar (hexDigitChar n) = true := by
  have hall : (List.range 16).all (fun k => isLowerHexChar (hexDigitChar k)) = true := by
    decide
  exact List.all_eq_true.mp hall n (List.mem_range.mpr (by omega))
lemma sixHexLower_rgb_to_hex (r g b : ℤ) : isSixHexLower (rgb_to_hex r g b) = true := by
  have hc : ∀ m : ℤ, clamp255 m ≤ 255 := by
    intro m; unfold clamp255; omega
  have h1 := hc r
  have h2 := hc g
  have h3 := hc b
  simp only [rgb_to_hex, isSixHexLower, toHex2, List.cons_append, List.nil_append,
    List.all_cons, List.all_nil, List.length_cons, List.length_nil, Bool.and_eq_true,
    decide_eq_true_eq, Bool.and_true]
  exact ⟨⟨trivial, trivial⟩, lowerHexDigitChar (by omega), lowerHexDigitChar (by omega),
    lowerHexDigitChar (by omega), lowerHexDigitChar (by omega),
    lowerHexDigitChar (by omega), lowerHexDigitChar (by omega)⟩
lemma sixHexLower_normalize_wf (s : String) (hs : specIsHexLiteral s = true) :
    isSixHexLower (normalize_hex s) = true := by
  rcases hsd : s.data with _ | ⟨c, body⟩
  · rw [specIsHexLiteral, hsd] at hs; simp at hs
  · rw [specIsHexLiteral, hsd] at hs
    simp only [Bool.and_eq_true, Bool.or_eq_true, decide_eq_true_eq] at hs
    obtain ⟨⟨hc, hhex⟩, hlen⟩ := hs
    subst hc
    have hhex2 : ∀ d ∈ body, isHexChar d = true := List.all_eq_true.mp hhex
    have hbody := strippedHexBody_of_hash_hex hhex2
    have hlow : ∀ d ∈ body.map asciiLowerChar, isLowerHexChar d = true := by
      intro d hd
      rcases List.mem_map.mp hd with ⟨e, he, rfl⟩
      exact lowerHex_of_hex (hhex2 e he)
    have hlenmap : (body.map asciiLowerChar).length = body.length := List.length_map _ _
    have hne : s.data.isEmpty = false := by rw [hsd]; rfl
    rw [normalize_hex, hne]
    simp only [Bool.false_eq_true, if_false, hsd]
    rw [normalizeHexCore]
    simp only [hbody]
    rcases hlen with ((h3 | h4) | h6) | h8
    · rw [if_pos (by rw [hlenmap]; exact h3)]
      rw [isSixHexLower]
      simp only [Bool.and_eq_true, decide_eq_true_eq]
      refine ⟨⟨trivial, ?_⟩, ?_⟩
      · rw [length_flatMap_dup, hlenmap, h3]
      · exact List.all_eq_true.mpr (all_flatMap_dup hlow)
    · rw [if_neg (by rw [hlenmap, h4]; omega), if_pos (by rw [hlenmap]; exact h4)]
      rw [isSixHexLower]
      simp only [Bool.and_eq_true, decide_eq_true_eq]
      refine ⟨⟨trivial, ?_⟩, ?_⟩
      · rw [length_flatMap_dup, List.length_take, hlenmap, h4]
        omega
      · refine List.all_eq_true.mpr (all_flatMap_dup ?_)
        intro d hd
        exact hlow d (List.mem_of_mem_take hd)
    · rw [if_neg (by rw [hlenmap, h6]; omega), if_neg (by rw [hlenmap, h6]; omega),
        if_neg (by rw [hlenmap, h6]; omega), if_neg (by rw [hlenmap, h6]; omega)]
      rw [isSixHexLower]
      simp only [Bool.and_eq_true, decide_eq_true_eq]
      exact ⟨⟨trivial, by rw [hlenmap]; exact h6⟩, List.all_eq_true.mpr hlow⟩
    · rw [if_neg (by rw [hlenmap, h8]; omega), if_neg (by rw [hlenmap, h8]; omega),
        if_pos (by rw [hlenmap]; exact h8)]
      rw [isSixHexLower]
      simp only [Bool.and_eq_true, decide_eq_true_eq]
      refine ⟨⟨trivial, ?_⟩, ?_⟩
      · rw [List.length_take, hlenmap, h8]
        omega
      · refine List.all_eq_true.mpr ?_
        intro d hd
        exact hlow d (List.mem_of_mem_take hd)
lemma normalize_hex_badlen (t : String)
    (ht : ¬((strippedHexBody t.data).length = 3 ∨ (strippedHexBody t.data).length = 4 ∨
            (strippedHexBody t.data).length = 6 ∨ (strippedHexBody t.data).length = 8)) :
    normalize_hex t = "#000000" := by
  push_neg at ht
  obtain ⟨h3, h4, h6, h8⟩ := ht
  rw [normalize_hex]
  by_cases he : t.data.isEmpty
  · rw [if_pos he]; rfl
  · rw [if_neg he]
    rw [normalizeHexCore]
    rw [if_neg h3, if_neg h4, if_neg h8, if_pos h6]
    rfl

/-- Claim C5, amended.  Normalization never raises (the embedding is total);
a well-formed hex literal always normalizes to `#` plus six lower-case hex
digits; `rgb_to_hex` and `hsl_to_hex` always produce that shape; and a
malformed input yields the sentinel `#000000` exactly when its lower-cased,
stripped, `#`-stripped body does not have length 3, 4, 6 or 8 — bodies of
those lengths pass through without hex-digit validation. -/
theorem normalize_hex_amended (s t : String) (r g b : ℤ) (hq sq lq : ℚ)
    (hs : specIsHexLiteral s = true)
    (ht : ¬((strippedHexBody t.data).length = 3 ∨ (strippedHexBody t.data).length = 4 ∨
            (strippedHexBody t.data).length = 6 ∨ (strippedHexBody t.data).length = 8)) :
    isSixHexLower (normalize_hex s) = true ∧
    isSixHexLower (rgb_to_hex r g b) = true ∧
    isSixHexLower (hsl_to_hex hq sq lq) = true ∧
    normalize_hex t = "#000000" := by
  refine ⟨sixHexLower_normalize_wf s hs, sixHexLower_rgb_to_hex r g b, ?_, normalize_hex_badlen t ht⟩
  rw [hsl_to_hex]
  exact sixHexLower_rgb_to_hex _ _ _

/-- Witness for `normalize_hex_amended` at concrete inputs. -/
theorem normalize_hex_amended_witness :
    specIsHexLiteral "#AbC" = true ∧
    ¬(((strippedHexBody "hello".data).length = 3 ∨ (strippedHexBody "hello".data).length = 4 ∨
       (strippedHexBody "hello".data).length = 6 ∨ (strippedHexBody "hello".data).length = 8)) ∧
    (isSixHexLower (normalize_hex "#AbC") = true ∧
     isSixHexLower (rgb_to_hex 300 (-4) 20) = true ∧
     isSixHexLower (hsl_to_hex 120 50 50) = true ∧
     normalize_hex "hello" = "#000000") :=
  ⟨by decide, by decide,
   normalize_hex_amended "#AbC" "hello" 300 (-4) 20 120 50 50 (by decide) (by decide)⟩

/-- Counterexample to claim C5 as stated: `"zzzzzz"` is not a well-formed
hex/rgb/hsl literal, yet `normalize_hex` returns `"#zzzzzz"`, not the
sentinel `"#000000"`. -/
theorem normalize_hex_malformed_passthrough :
    specIsHexLiteral "zzzzzz" = false ∧ specIsRgbLiteral "zzzzzz" = false ∧
    specIsHslLiteral "zzzzzz" = false ∧
    normalize_hex "zzzzzz" = "#zzzzzz" ∧ "#zzzzzz" ≠ "#000000" := by
  refine ⟨by decide, by decide, by decide, by decide, by decide⟩

/-! ## Claim C7: permutation behavior of `ColorExtractor.extract` -/

/-- Project one context tally out of the state. -/
def bucketTally (st : ColorState) : ColorBucket → Tally
  | .primary => st.primary
  | .secondary => st.secondary
  | .background => st.background
  | .accent => st.accent
  | .neutrals => st.neutrals

lemma tallyCount_tallyAdd (t : Tally) (c c' : String) :
    tallyCount (tallyAdd t c') c = tallyCount t c + (if c' = c then 1 else 0) := by
  induction t with
  | nil =>
      by_cases h : c' = c <;> simp [tallyAdd, tallyCount, h]
  | cons p rest ih =>
      by_cases hp : p.1 = c'
      · rw [tallyAdd, if_pos hp]
        by_cases hc : c' = c
        · subst hc
          simp [tallyCount, hp]
          omega
        · have : ¬(p.1 = c) := by rw [hp]; exact hc
          simp [tallyCount, this, hc]
      · rw [tallyAdd, if_neg hp]
        by_cases hpc : p.1 = c <;> simp [tallyCount, hpc] at ih ⊢ <;> omega
lemma applyColorEvent_all_colors (st : ColorState) (e : ColorEvent) :
    (applyColorEvent st e).all_colors = tallyAdd st.all_colors e.color := by
  rcases e with ⟨b, c⟩
  rcases b with _ | b
  · rfl
  · cases b <;> rfl

lemma applyColorEvent_bucket (st : ColorState) (e : ColorEvent) (b : ColorBucket) :
    bucketTally (applyColorEvent st e) b =
      if e.bucket = some b then tallyAdd (bucketTally st b) e.color
      else bucketTally st b := by
  rcases e with ⟨eb, c⟩
  rcases eb with _ | eb
  · cases b <;> simp [applyColorEvent, bucketTally]
  · cases eb <;> cases b <;> simp [applyColorEvent, bucketTally]

lemma fold_all_colors (es : List ColorEvent) (st : ColorState) (c : String) :
    tallyCount ((es.foldl applyColorEvent st).all_colors) c
      = tallyCount st.all_colors c + es.countP (fun e => e.color = c) := by
  induction es generalizing st with
  | nil => simp
  | cons e rest ih =>
      rw [List.foldl_cons, ih, applyColorEvent_all_colors, tallyCount_tallyAdd,
        List.countP_cons]
      by_cases h : e.color = c <;> simp [h] <;> omega

lemma fold_bucket (es : List ColorEvent) (st : ColorState) (b : ColorBucket) (c : String) :
    tallyCount (bucketTally (es.foldl applyColorEvent st) b) c
      = tallyCount (bucketTally st b) c
        + es.countP (fun e => e.bucket = some b && e.color = c) := by
  induction es generalizing st with
  | nil => simp
  | cons e rest ih =>
      rw [List.foldl_cons, ih, applyColorEvent_bucket, List.countP_cons]
      by_cases hb : e.bucket = some b
      · rw [if_pos hb, tallyCount_tallyAdd]
        by_cases hc : e.color = c <;> simp [hb, hc] <;> omega
      · rw [if_neg hb]
        simp [hb]

/-- Amended claim C7.  The per-color frequency recorded in every tally of
`ColorExtractor` — the global `all_colors` map and each of the five context
maps — is invariant under permutation of the CSS block list.  (The selected
role colors themselves are not: the `(frequency, saturation)` ranking breaks
ties by insertion order, see the counterexample.) -/
theorem color_tallies_perm_invariant (l₁ l₂ : List CssBlock) (c : String)
    (h : l₁.Perm l₂) :
    tallyCount (runColorState l₁).all_colors c
      = tallyCount (runColorState l₂).all_colors c ∧
    ∀ b : ColorBucket,
      tallyCount (bucketTally (runColorState l₁) b) c
        = tallyCount (bucketTally (runColorState l₂) b) c := by
  have hev : (colorEvents l₁).Perm (colorEvents l₂) :=
    List.Perm.flatMap_right parseCssEvents (h.filter _)
  constructor
  · rw [runColorState, runColorState, fold_all_colors, fold_all_colors]
    rw [List.Perm.countP_congr hev (fun x _ => rfl)]
  · intro b
    rw [runColorState, runColorState, fold_bucket, fold_bucket]
    rw [List.Perm.countP_congr hev (fun x _ => rfl)]

/-- First block of the C7 counterexample: `a{color:#ff0000}` with its parse. -/
def cex7blockA : CssBlock :=
  ⟨"a\x7bcolor:#ff0000\x7d", some [⟨"a", [("color", "#ff0000")]⟩]⟩

/-- Second block of the C7 counterexample: `a{color:#00ff00}` with its parse. -/
def cex7blockB : CssBlock :=
  ⟨"a\x7bcolor:#00ff00\x7d", some [⟨"a", [("color", "#00ff00")]⟩]⟩

/-- Counterexample to claim C7 as stated: swapping two CSS blocks changes
the selected primary color (both colors tie at frequency 2 and saturation 1,
and the stable ranking then follows insertion order). -/
theorem color_extract_not_perm_invariant :
    ([cex7blockA, cex7blockB]).Perm [cex7blockB, cex7blockA] ∧
    (ColorExtractor.extract [cex7blockA, cex7blockB]).primary = some "#ff0000" ∧
    (ColorExtractor.extract [cex7blockB, cex7blockA]).primary = some "#00ff00" ∧
    (ColorExtractor.extract [cex7blockA, cex7blockB]).primary
      ≠ (ColorExtractor.extract [cex7blockB, cex7blockA]).primary := by
  refine ⟨List.Perm.swap cex7blockB cex7blockA [], ?_, ?_, ?_⟩
  · with_unfolding_all decide
  · with_unfolding_all decide
  · with_unfolding_all decide

/-- Witness for `color_tallies_perm_invariant` on the two concrete blocks. -/
theorem color_tallies_perm_invariant_witness :
    tallyCount (runColorState [cex7blockA, cex7blockB]).all_colors "#ff0000"
      = tallyCount (runColorState [cex7blockB, cex7blockA]).all_colors "#ff0000" ∧
    ∀ b : ColorBucket,
      tallyCount (bucketTally (runColorState [cex7blockA, cex7blockB]) b) "#ff0000"
        = tallyCount (bucketTally (runColorState [cex7blockB, cex7blockA]) b) "#ff0000" :=
  color_tallies_perm_invariant [cex7blockA, cex7blockB] [cex7blockB, cex7blockA]
    "#ff0000" (List.Perm.swap cex7blockB cex7blockA [])

/-! ## `extractors/logo.py`: data model

Geometry records arrive from the fetch collaborator; every field keeps the
default that the Python `.get(...)` calls supply for a missing key.  The
`aspectRatio` keys are rendered as `aspectRatioQ`.  BeautifulSoup queries
are abstracted as a `Dom` value holding exactly the attributes the code
reads; the OpenCV contour search of the vision tier is abstracted as its
outcome (`VisionDetection`), with the surrounding control flow translated
literally.  The returned logo dict carries an extra ghost field
`fingerprint` recording the fingerprint of the winning vector shape (the
code has it in scope at each construction site); tiers that return raster
or vision candidates set it to `none`. -/

/-- Vector geometry record (defaults are the `.get` defaults). -/
structure Geometry where
  fingerprint : String := ""
  totalPathLength : ℚ := 0
  pathCount : ℕ := 0
  pathCommands : ℚ := 0
  aspectRatioQ : ℚ := 1
  area : ℚ := 0
  x : ℚ := 0
  isComplex : Bool := false
  isWordmark : Bool := false
deriving DecidableEq

/-- Captured style of a vector shape. -/
structure SvgColors where
  color : Option String := none
  fill : Option String := none
deriving DecidableEq

/-- One vector record handed to the logo extractor. -/
structure SvgData where
  geometry : Geometry := {}
  colors : SvgColors := {}
  html : Option String := none
  isInLink : Bool := false
deriving DecidableEq

/-- One raster record handed to the logo extractor. -/
structure ImgData where
  src : Option String := none
  isLogoKeyword : Bool := false
  aspectRatioQ : ℚ := 1
  width : ℚ := 0
  height : ℚ := 0
  inHeader : Bool := false
  linkHref : Option String := none
deriving DecidableEq

/-- One brand-anchor record: its contained vector and raster shapes. -/
structure BrandAnchor where
  svgs : List SvgData := []
  imgs : List ImgData := []
deriving DecidableEq

/-- A `<svg>` element of the parsed document: its paths' `d` attributes
(missing `d` is the empty string) and its serialization. -/
structure DomSvg where
  paths : List String := []
  html : String := ""
deriving DecidableEq

/-- An `<img>` element found inside a candidate anchor. -/
structure DomImg where
  src : Option String := none
  alt : Option String := none
  cls : Option (List String) := none
deriving DecidableEq

/-- An anchor returned by the `header a, nav a, [role='banner'] a,
a[href='/']` selector: its href, stripped text, first svg and first img. -/
structure DomAnchor where
  href : String := ""
  text : String := ""
  svg : Option DomSvg := none
  img : Option DomImg := none
deriving DecidableEq

/-- The parsed document, abstracted to the two queries the code makes. -/
structure Dom where
  svgs : List DomSvg := []
  anchors : List DomAnchor := []
deriving DecidableEq

/-- Outcome of the OpenCV contour search on a screenshot: the best
candidate's crop (base64) and its composite score. -/
structure VisionDetection where
  cropB64 : String := ""
  maxScore : ℚ := 0
deriving DecidableEq

/-- A resolved logo reference.  `joined` marks a URL produced by
`urljoin(base_url, src)` (urllib is kept abstract), `direct` a URL used
as-is. -/
inductive UrlRef
  | joined (base src : String)
  | direct (u : String)
deriving DecidableEq

/-- Geometry summary attached to a tier-1 vector logo. -/
structure LogoComplexity where
  path_count : ℕ := 0
  path_length : ℚ := 0
  aspectRatioQ : ℚ := 0
deriving DecidableEq

/-- The logo descriptor dict.  `isWordmark`/`complexity` are `none` when the
Python dict lacks the key; `fingerprint` is the ghost field described above. -/
structure Logo where
  found : Bool := false
  type : Option String := none
  svg : Option String := none
  url : Option UrlRef := none
  color : Option String := none
  confidence : ℚ := 0
  source : String := "none"
  isWordmark : Option Bool := none
  complexity : Option LogoComplexity := none
  fingerprint : Option String := none
deriving DecidableEq

/-- Input of one `LogoExtractor` instance.  `origin` is the
`scheme://netloc` value that `__init__` derives via `urlparse` (urllib kept
abstract); `screenshot = none` models no screenshot, `some v` a screenshot
whose contour search yields `v`. -/
structure LogoInput where
  soup : Option Dom := none
  baseUrl : String := ""
  origin : String := ""
  brandAnchors : List BrandAnchor := []
  allSvgs : List SvgData := []
  headerImages : List ImgData := []
  screenshot : Option (Option VisionDetection) := none
deriving DecidableEq

/-! ## `extractors/logo.py`: helper functions -/

/-- Full lower-case hex rendering of a natural number. -/
def natToHex (n : ℕ) : List Char :=
  if h : n < 16 then [hexDigitChar n]
  else natToHex (n / 16) ++ [hexDigitChar (n % 16)]
decreasing_by exact Nat.div_lt_self (by omega) (by omega)

/-- Python's `f"{n:02x}"`: hex, zero-padded to at least two digits. -/
def natToHex2Pad (n : ℕ) : List Char :=
  if n < 16 then '0' :: natToHex n else natToHex n

/-- Embedding of `logo.rgb_to_hex`: `re.match` of
`rgba?\s*\(\s*(\d+)\s*,\s*(\d+)\s*,\s*(\d+)` (anchored, case-sensitive, no
closing paren needed), formatted without clamping. -/
def logo_rgb_to_hex (s : String) : Option String := do
  let l := s.data
  let l ← if "rgb".data.isPrefixOf l then some (l.drop 3) else none
  let l := match l with
    | 'a' :: r => r
    | r => r
  let l := skipWs l
  let l ← expectChar '(' l
  let l := skipWs l
  let (d1, l) ← takeDigits l
  let l := skipWs l
  let l ← expectChar ',' l
  let l := skipWs l
  let (d2, l) ← takeDigits l
  let l := skipWs l
  let l ← expectChar ',' l
  let l := skipWs l
  let (d3, _) ← takeDigits l
  pure ⟨'#' :: (natToHex2Pad (digitsToNat d1) ++ natToHex2Pad (digitsToNat d2)
    ++ natToHex2Pad (digitsToNat d3))⟩

/-- Fingerprint of a DOM svg: concatenation of each path's `d` truncated to
50 characters, the whole truncated to 200. -/
def domFingerprint (svg : DomSvg) : String :=
  ⟨(svg.paths.flatMap fun d => d.data.take 50).take 200⟩

/-- Record one nonempty fingerprint in the usage map. -/
def bumpFp (u : String → ℕ) (fp : String) : String → ℕ :=
  if fp = "" then u else fun k => if k = fp then u k + 1 else u k

/-- Embedding of `LogoExtractor._build_fingerprint_map`: count fingerprints
of brand-anchor svgs, of all header svgs, and of every DOM svg. -/
def build_fingerprint_map (inp : LogoInput) : String → ℕ :=
  let u0 : String → ℕ := fun _ => 0
  let u1 := inp.brandAnchors.foldl
    (fun u a => a.svgs.foldl (fun u s => bumpFp u s.geometry.fingerprint) u) u0
  let u2 := inp.allSvgs.foldl (fun u s => bumpFp u s.geometry.fingerprint) u1
  match inp.soup with
  | none => u2
  | some dom => dom.svgs.foldl (fun u s => bumpFp u (domFingerprint s)) u2

/-- Embedding of `LogoExtractor._is_repeated_svg`. -/
def is_repeated_svg (u : String → ℕ) (fp : String) : Bool :=
  if fp = "" then false else u fp > 1

/-- Embedding of `LogoExtractor._calculate_svg_score`. -/
def calculate_svg_score (g : Geometry) : ℚ :=
  let score : ℚ := 0
  let score := score + min (g.totalPathLength / 50) 30
  let score := score + min ((g.pathCount : ℚ) * 3) 15
  let score := score + min (g.pathCommands / 5) 15
  let score :=
    if g.aspectRatioQ > 2 then score + 20
    else if g.aspectRatioQ > 3/2 then score + 10
    else score
  let score :=
    if 4/5 < g.aspectRatioQ ∧ g.aspectRatioQ < 6/5 then score - 10 else score
  let score :=
    if g.area > 2000 then score + 10
    else if g.area > 500 then score + 5
    else score
  let score := if g.x < 300 then score + 5 else score
  let score := if g.isComplex then score + 5 else score
  max 0 score

/-- Embedding of `LogoExtractor._calculate_image_score`. -/
def calculate_image_score (img : ImgData) : ℚ :=
  let score : ℚ := 20
  let score := if img.isLogoKeyword then score + 30 else score
  let score :=
    if img.aspectRatioQ > 3/2 then score + 15
    else if img.aspectRatioQ > 6/5 then score + 5
    else score
  if img.width < 30 ∨ img.height < 15 then 0
  else
    let score := if 50 < img.width ∧ img.width < 400 then score + 10 else score
    if img.inHeader then score + 10 else score

/-- Tint resolution of `_extract_from_brand_anchors`: captured text color,
else fill (unless `"none"`), each converted through `logo.rgb_to_hex` with
the raw value as fallback. -/
def resolveSvgColor (cs : SvgColors) : Option String :=
  if optStrTruthy cs.color then
    match cs.color with
    | some c => some ((logo_rgb_to_hex c).getD c)
    | none => none
  else if optStrTruthy cs.fill && !(cs.fill = some "none") then
    match cs.fill with
    | some f => some ((logo_rgb_to_hex f).getD f)
    | none => none
  else none

/-- Decidable equality for `Except`, used to evaluate the embedded
extractor on concrete inputs. -/
instance exceptDecEq {e a : Type} [DecidableEq e] [DecidableEq a] :
    DecidableEq (Except e a) := fun x y =>
  match x, y with
  | .error u, .error v =>
      if h : u = v then .isTrue (by rw [h]) else .isFalse (by intro hh; cases hh; exact h rfl)
  | .ok u, .ok v =>
      if h : u = v then .isTrue (by rw [h]) else .isFalse (by intro hh; cases hh; exact h rfl)
  | .error _, .ok _ => .isFalse (by intro hh; cases hh)
  | .ok _, .error _ => .isFalse (by intro hh; cases hh)

/-! ## `extractors/logo.py`: the five tiers -/

/-- Loop body of the svg pass of `_extract_from_brand_anchors`; the state is
the `(best_logo, best_score)` pair. -/
def brandAnchorSvgStep (u : String → ℕ) (st : Option Logo × ℚ) (svg : SvgData) :
    Option Logo × ℚ :=
  let g := svg.geometry
  if is_repeated_svg u g.fingerprint then st
  else
    let score := calculate_svg_score g
    if score > st.2 then
      (some { found := true, type := some "inline_svg", svg := svg.html, url := none,
              color := resolveSvgColor svg.colors,
              confidence := max (3/4) (min (19/20) (score / 100)),
              source := "brand_anchor_svg", isWordmark := some g.isWordmark,
              complexity := some ⟨g.pathCount, g.totalPathLength, pyRound2 g.aspectRatioQ⟩,
              fingerprint := some g.fingerprint }, score)
    else st

/-- Loop body of the img pass of `_extract_from_brand_anchors`. -/
def brandAnchorImgStep (baseUrl : String) (st : Option Logo × ℚ) (img : ImgData) :
    Option Logo × ℚ :=
  if !optStrTruthy img.src then st
  else
    let score := calculate_image_score img
    if score > st.2 then
      let s := img.src.getD ""
      (some { found := true,
              type := some (if pyIn ".svg" (pyLower s) then "svg" else "image"),
              svg := none, url := some (.joined baseUrl s), color := none,
              confidence := max (13/20) (min (17/20) (score / 100)),
              source := "brand_anchor_img", isWordmark := none, complexity := none,
              fingerprint := none }, score)
    else st

/-- Per-anchor body of `_extract_from_brand_anchors`: svgs first, then (only
while the best score is still below 40) the anchor's images. -/
def brandAnchorStep (u : String → ℕ) (baseUrl : String) (st : Option Logo × ℚ)
    (a : BrandAnchor) : Option Logo × ℚ :=
  let st := a.svgs.foldl (brandAnchorSvgStep u) st
  if st.2 < 40 then a.imgs.foldl (brandAnchorImgStep baseUrl) st else st

/-- Embedding of `LogoExtractor._extract_from_brand_anchors`. -/
def extract_from_brand_anchors (inp : LogoInput) (u : String → ℕ) : Option Logo :=
  (inp.brandAnchors.foldl (brandAnchorStep u inp.baseUrl) (none, 0)).1

/-- Loop body of `_extract_from_header_svgs`: repeated fingerprints skipped,
a 0.7 multiplicative penalty when the svg is not inside a link. -/
def headerSvgStep (u : String → ℕ) (st : Option Logo × ℚ) (svg : SvgData) :
    Option Logo × ℚ :=
  let g := svg.geometry
  if is_repeated_svg u g.fingerprint then st
  else
    let in_link := svg.isInLink
    let score := calculate_svg_score g
    let score := if !in_link then score * (7/10) else score
    if score > st.2 then
      let color :=
        if optStrTruthy svg.colors.color then
          match svg.colors.color with
          | some c => some ((logo_rgb_to_hex c).getD c)
          | none => none
        else none
      (some { found := true, type := some "inline_svg", svg := svg.html, url := none,
              color := color, confidence := min (4/5) (score / 100),
              source := "header_svg", isWordmark := some g.isWordmark,
              complexity := none, fingerprint := some g.fingerprint }, score)
    else st

/-- Embedding of `LogoExtractor._extract_from_header_svgs`. -/
def extract_from_header_svgs (inp : LogoInput) (u : String → ℕ) : Option Logo :=
  (inp.allSvgs.foldl (headerSvgStep u) (none, 0)).1

/-- Home-link test of tier 3: `link_href in ["/", origin, origin + "/"]`
(a `None` href is never in the list). -/
def linkIsHome (linkHref : Option String) (origin : String) : Bool :=
  match linkHref with
  | some h => h = "/" || h = origin || h = origin ++ "/"
  | none => false

/-- Loop body of `_extract_from_header_images`.  Building the winning record
reads `src.lower()`; a missing `src` raises (`Except.error`). -/
def headerImageStep (origin baseUrl : String) (st : Except Unit (Option Logo × ℚ))
    (img : ImgData) : Except Unit (Option Logo × ℚ) := do
  let st ← st
  let score := calculate_image_score img
  let score := if linkIsHome img.linkHref origin then score + 25 else score
  if score > st.2 then
    match img.src with
    | none => .error ()
    | some s =>
        let lg : Logo :=
          { found := true,
            type := some (if pyIn ".svg" (pyLower s) then "svg" else "image"),
            svg := none, url := some (.joined baseUrl s), color := none,
            confidence := min (3/4) (score / 100), source := "header_image",
            isWordmark := none, complexity := none, fingerprint := none }
        .ok (some lg, score)
  else .ok st

/-- Embedding of `LogoExtractor._extract_from_header_images`. -/
def extract_from_header_images (inp : LogoInput) : Except Unit (Option Logo) :=
  (inp.headerImages.foldl (headerImageStep inp.origin inp.baseUrl) (.ok (none, 0))).map
    Prod.fst

/-- DOM-fallback candidate: an svg (with its ghost fingerprint) or an img. -/
inductive DomCandidate
  | svgC (html : String) (pathCount : ℕ) (pathLength : ℕ) (score : ℚ) (fp : String)
  | imgC (src : String) (score : ℚ)
deriving DecidableEq

/-- Sort key of the DOM fallback's candidate list. -/
def domCandidateScore : DomCandidate → ℚ
  | .svgC _ _ _ s _ => s
  | .imgC _ s => s

/-- Candidates one anchor contributes in `_fallback_dom_extraction`: home-ish
anchors with short text; an svg candidate (unless its fingerprint repeats)
and an img candidate (scored 20, +40 for a "logo" keyword in alt/class). -/
def domAnchorCandidates (u : String → ℕ) (origin : String) (a : DomAnchor) :
    List DomCandidate :=
  if !(a.href = "/" || a.href = origin || a.href = origin ++ "/" || a.href = "#"
       || "/".data.isPrefixOf a.href.data) then []
  else if a.text.data.length > 25 then []
  else
    (match a.svg with
     | none => []
     | some svg =>
        let total_d := (svg.paths.map fun d => d.data.length).sum
        let fp := domFingerprint svg
        if is_repeated_svg u fp then []
        else [.svgC svg.html svg.paths.length total_d
          ((svg.paths.length : ℚ) * 5 + (total_d : ℚ) / 50) fp])
    ++
    (match a.img with
     | none => []
     | some img =>
        if !optStrTruthy img.src then []
        else
          let alt := pyLower (img.alt.getD "")
          let cls := match img.cls with
            | none => [""]
            | some [] => [""]
            | some l => l
          let clsStr := String.intercalate " " cls
          let score : ℚ := 20 + (if pyIn "logo" alt || pyIn "logo" (pyLower clsStr)
            then 40 else 0)
          [.imgC (img.src.getD "") score])

/-- Embedding of `LogoExtractor._fallback_dom_extraction`. -/
def fallback_dom_extraction (inp : LogoInput) (u : String → ℕ) : Option Logo :=
  match inp.soup with
  | none => none
  | some dom =>
      let candidates := dom.anchors.flatMap (domAnchorCandidates u inp.origin)
      let sorted := sortDescBy (fun a b => domCandidateScore a < domCandidateScore b)
        candidates
      match sorted.head? with
      | none => none
      | some (.svgC html _pc _pl score fp) =>
          some { found := true, type := some "inline_svg", svg := some html,
                 url := none, color := none, confidence := min (3/5) (score / 100),
                 source := "dom_fallback_svg", isWordmark := none, complexity := none,
                 fingerprint := some fp }
      | some (.imgC src score) =>
          some { found := true, type := some "image", svg := none,
                 url := some (.joined inp.baseUrl src), color := none,
                 confidence := min (1/2) (score / 100), source := "dom_fallback_img",
                 isWordmark := none, complexity := none, fingerprint := none }

/-- Embedding of `LogoExtractor._vision_fallback`, with the OpenCV contour
search abstracted as its outcome: no screenshot or no acceptable contour
yields `none`; a best candidate above 0.3 yields the vision crop at half its
score, rounded to two decimals. -/
def vision_fallback (inp : LogoInput) : Option Logo :=
  match inp.screenshot with
  | none => none
  | some none => none
  | some (some d) =>
      if d.maxScore > 3/10 then
        some { found := true, type := some "vision_crop", svg := none,
               url := some (.direct ("data:image/png;base64," ++ d.cropB64)),
               color := none, confidence := pyRound2 (d.maxScore * (1/2)),
               source := "vision_fallback", isWordmark := none, complexity := none,
               fingerprint := none }
      else none

/-- The explicit not-found descriptor of `LogoExtractor.extract`. -/
def notFoundLogo : Logo :=
  { found := false, type := none, svg := none, url := none, color := none,
    confidence := 0, source := "none", isWordmark := none, complexity := none,
    fingerprint := none }

/-- Python's `logo and logo.get("found") and logo.get("confidence", 0) > thr`. -/
def tierGate (l : Option Logo) (thr : ℚ) : Bool :=
  match l with
  | some lg => lg.found && lg.confidence > thr
  | none => false

/-- Python's `logo and logo.get("found")`. -/
def logoFoundB (l : Option Logo) : Bool :=
  match l with
  | some lg => lg.found
  | none => false

/-- Tier-5 block of `extract`: when a screenshot is present the vision
fallback runs and is returned when found; otherwise (and when no screenshot
exists) the not-found descriptor is returned.  The carried candidate is
never returned here — mirroring the code, which falls through to the final
not-found dict. -/
def tier5Run (inp : LogoInput) (tr : List ℕ) : Except Unit (Logo × List ℕ) :=
  match inp.screenshot with
  | none => .ok (notFoundLogo, tr)
  | some _ =>
      let logo5 := vision_fallback inp
      if logoFoundB logo5 then .ok (logo5.getD notFoundLogo, tr ++ [5])
      else .ok (notFoundLogo, tr ++ [5])

/-- Tier-4 block of `extract`: the DOM fallback runs only while no found
candidate is held, and is returned whenever it reports found. -/
def tier4Run (inp : LogoInput) (u : String → ℕ) (logo : Option Logo) (tr : List ℕ) :
    Except Unit (Logo × List ℕ) :=
  if !logoFoundB logo then
    let logo4 := fallback_dom_extraction inp u
    if logoFoundB logo4 then .ok (logo4.getD notFoundLogo, tr ++ [4])
    else tier5Run inp (tr ++ [4])
  else tier5Run inp tr

/-- Tier-3 block of `extract`: header images run only while no found
candidate is held; the tier may raise. -/
def tier3Run (inp : LogoInput) (u : String → ℕ) (logo : Option Logo) (tr : List ℕ) :
    Except Unit (Logo × List ℕ) :=
  if !logoFoundB logo then
    match extract_from_header_images inp with
    | .error e => .error e
    | .ok logo3 =>
        if logoFoundB logo3 then .ok (logo3.getD notFoundLogo, tr ++ [3])
        else tier4Run inp u logo3 (tr ++ [3])
  else tier4Run inp u logo tr

/-- Tier-2 block of `extract`: header svgs run only while no found candidate
is held, accepted above confidence 0.4. -/
def tier2Run (inp : LogoInput) (u : String → ℕ) (logo : Option Logo) (tr : List ℕ) :
    Except Unit (Logo × List ℕ) :=
  if !logoFoundB logo then
    let logo2 := extract_from_header_svgs inp u
    if tierGate logo2 (2/5) then .ok (logo2.getD notFoundLogo, tr ++ [2])
    else tier3Run inp u logo2 (tr ++ [2])
  else tier3Run inp u logo tr

/-- Embedding of `LogoExtractor.extract`, instrumented with the list of
tiers whose extraction functions were evaluated.  Control flow is the
literal translation of the five guarded blocks of the Python method. -/
def extractTrace (inp : LogoInput) : Except Unit (Logo × List ℕ) :=
  let u := build_fingerprint_map inp
  let logo1 := extract_from_brand_anchors inp u
  if tierGate logo1 (1/2) then .ok (logo1.getD notFoundLogo, [1])
  else tier2Run inp u logo1 [1]

/-- Embedding of `LogoExtractor.extract` (result only). -/
def LogoExtractor.extract (inp : LogoInput) : Except Unit Logo :=
  (extractTrace inp).map Prod.fst

/-! ## Claims C9 and C10: concrete tier behavior -/

/-- Geometry of the C9 counterexample: path-command text length 600, aspect
ratio 3.0, unique fingerprint, upstream wordmark flag absent (default
`False`). -/
def cex9geom : Geometry := { fingerprint := "fp1", totalPathLength := 600, aspectRatioQ := 3 }

/-- Input of the C9 counterexample: one brand anchor holding only that
vector. -/
def cex9input : LogoInput :=
  { baseUrl := "https://x.com", origin := "https://x.com",
    brandAnchors := [{ svgs := [{ geometry := cex9geom, html := some "<svg/>" }] }] }

/-- The logo the code returns on `cex9input`. -/
def cex9logo : Logo :=
  { found := true, type := some "inline_svg", svg := some "<svg/>", url := none,
    color := none, confidence := 3/4, source := "brand_anchor_svg",
    isWordmark := some false,
    complexity := some { path_count := 0, path_length := 600, aspectRatioQ := 3 },
    fingerprint := some "fp1" }

/-- Counterexample to claim C9 as stated: a brand-anchor vector with
path-command length 600, aspect ratio 3.0 and a page-unique fingerprint is
returned as a found logo at confidence 0.75, but its wordmark flag is the
upstream `isWordmark` value — `false` here — not `true`. -/
theorem brand_anchor_wordmark_counterexample :
    cex9geom.totalPathLength = 600 ∧ cex9geom.aspectRatioQ = 3 ∧
    build_fingerprint_map cex9input "fp1" = 1 ∧
    LogoExtractor.extract cex9input = .ok cex9logo ∧
    cex9logo.found = true ∧ cex9logo.confidence ≥ 3/4 ∧
    cex9logo.isWordmark = some false := by
  refine ⟨rfl, rfl, ?_, ?_, rfl, ?_, rfl⟩
  · with_unfolding_all decide
  · with_unfolding_all decide
  · with_unfolding_all decide

/-- Input of the C10 theorem: tiers 1 and 2 empty, one header-image record
passing the minimum-size check but carrying no `src`. -/
def cex10input : LogoInput :=
  { baseUrl := "https://x.com", origin := "https://x.com",
    headerImages := [{ width := 100, height := 50 }] }

/-- Claim C10.  With no brand anchors and no header vectors, a header-image
record of width 100 ≥ 30 and height 50 ≥ 15 but with no `src` value makes
tier 3 raise (`src.lower()` on `None`), so `LogoExtractor.extract` is not
total without the non-null-src precondition. -/
theorem header_image_missing_src_raises :
    (cex10input.headerImages.all fun i => 30 ≤ i.width ∧ 15 ≤ i.height ∧ i.src = none) ∧
    extract_from_brand_anchors cex10input (build_fingerprint_map cex10input) = none ∧
    extract_from_header_svgs cex10input (build_fingerprint_map cex10input) = none ∧
    LogoExtractor.extract cex10input = .error () := by
  refine ⟨?_, ?_, ?_, ?_⟩
  · with_unfolding_all decide
  · with_unfolding_all decide
  · with_unfolding_all decide
  · with_unfolding_all decide

/-! ## Claim C2: tier-1 short-circuit -/

lemma tierGate_true_of (l : Logo) (thr : ℚ) (h2 : l.found = true)
    (h3 : l.confidence > thr) : tierGate (some l) thr = true := by
  simp [tierGate, h2, h3]

lemma extractTrace_tier1 (inp : LogoInput) (l : Logo)
    (h1 : extract_from_brand_anchors inp (build_fingerprint_map inp) = some l)
    (h2 : l.found = true) (h3 : l.confidence > 1/2) :
    extractTrace inp = .ok (l, [1]) := by
  simp only [extractTrace]
  rw [h1, tierGate_true_of l (1/2) h2 h3]
  simp

/-- Claim C2.  When tier 1 (brand anchors) yields a found candidate with
confidence above 0.5, `extract` returns exactly that candidate and the
evaluated-tier trace is `[1]`: the tier 2–5 extraction functions are never
evaluated. -/
theorem tier1_short_circuits_rest (inp : LogoInput) (l : Logo)
    (h1 : extract_from_brand_anchors inp (build_fingerprint_map inp) = some l)
    (h2 : l.found = true) (h3 : l.confidence > 1/2) :
    extractTrace inp = .ok (l, [1]) ∧ LogoExtractor.extract inp = .ok l := by
  have h := extractTrace_tier1 inp l h1 h2 h3
  exact ⟨h, by rw [LogoExtractor.extract, h]; rfl⟩

/-- Witness for `tier1_short_circuits_rest` on the concrete brand-anchor
input `cex9input`. -/
theorem tier1_short_circuits_rest_witness :
    extract_from_brand_anchors cex9input (build_fingerprint_map cex9input)
      = some cex9logo ∧
    cex9logo.found = true ∧ cex9logo.confidence > 1/2 ∧
    (extractTrace cex9input = .ok (cex9logo, [1]) ∧
     LogoExtractor.extract cex9input = .ok cex9logo) := by
  have ha : extract_from_brand_anchors cex9input (build_fingerprint_map cex9input)
      = some cex9logo := by with_unfolding_all decide
  have hb : cex9logo.confidence > 1/2 := by norm_num [cex9logo]
  exact ⟨ha, rfl, hb, tier1_short_circuits_rest cex9input cex9logo ha rfl hb⟩

set_option maxHeartbeats 2000000 in
/-- Claim C9, amended.  For an input whose brand anchors consist of a single
anchor holding exactly one vector record with path-command text length 600,
aspect ratio 3.0, a fingerprint occurring at most once in the page
fingerprint map, nonnegative upstream command count, and upstream wordmark
flag `true`, `extract` returns a found logo with confidence ≥ 0.75 and
wordmark flag `true`.  (The counterexample shows the flag is copied from the
upstream record, so the claim only holds once that flag is required.) -/
theorem brand_anchor_wordmark_amended (inp : LogoInput) (g : Geometry)
    (c : SvgColors) (h : Option String) (il : Bool)
    (hba : inp.brandAnchors
      = [{ svgs := [{ geometry := g, colors := c, html := h, isInLink := il }], imgs := [] }])
    (hlen : g.totalPathLength = 600) (har : g.aspectRatioQ = 3)
    (hwm : g.isWordmark = true) (hpc : 0 ≤ g.pathCommands)
    (hfp : build_fingerprint_map inp g.fingerprint ≤ 1) :
    ∃ l : Logo, LogoExtractor.extract inp = .ok l ∧ l.found = true ∧
      l.confidence ≥ 3/4 ∧ l.isWordmark = some true := by
  set u := build_fingerprint_map inp with hu
  have hnorep : is_repeated_svg u g.fingerprint = false := by
    rw [is_repeated_svg]
    by_cases he : g.fingerprint = ""
    · simp [he]
    · simp [he]
      omega
  have hscore : calculate_svg_score g > 0 := by
    rw [calculate_svg_score, hlen, har]
    have t2 : (0 : ℚ) ≤ min ((g.pathCount : ℚ) * 3) 15 := by
      apply le_min
      · positivity
      · norm_num
    have t3 : (0 : ℚ) ≤ min (g.pathCommands / 5) 15 := by
      apply le_min
      · positivity
      · norm_num
    have h12 : min ((600 : ℚ) / 50) 30 = 12 := by norm_num
    rw [h12]
    norm_num
    split_ifs <;> linarith
  set score := calculate_svg_score g with hs
  have hlogo : extract_from_brand_anchors inp u = some
      { found := true, type := some "inline_svg", svg := h, url := none,
        color := resolveSvgColor c,
        confidence := max (3/4) (min (19/20) (score / 100)),
        source := "brand_anchor_svg", isWordmark := some g.isWordmark,
        complexity := some ⟨g.pathCount, g.totalPathLength, pyRound2 g.aspectRatioQ⟩,
        fingerprint := some g.fingerprint } := by
    rw [extract_from_brand_anchors, hba]
    simp only [List.foldl_cons, List.foldl_nil, brandAnchorStep, brandAnchorSvgStep,
      hnorep, Bool.false_eq_true, if_false, List.foldl_nil]
    rw [if_pos hscore]
    simp
  refine ⟨
    { found := true, type := some "inline_svg", svg := h, url := none,
      color := resolveSvgColor c,
      confidence := max (3/4) (min (19/20) (score / 100)),
      source := "brand_anchor_svg", isWordmark := some g.isWordmark,
      complexity := some ⟨g.pathCount, g.totalPathLength, pyRound2 g.aspectRatioQ⟩,
      fingerprint := some g.fingerprint }, ?_, rfl, le_max_left _ _, by rw [hwm]⟩
  have htr := extractTrace_tier1 inp _ hlogo rfl
    (lt_of_lt_of_le (by norm_num) (le_max_left (3/4) (min (19/20) (score / 100))))
  rw [LogoExtractor.extract, htr]
  rfl

/-- Geometry for the witness of the amended C9 claim (wordmark flag set). -/
def c9wgeom : Geometry :=
  { fingerprint := "fpw", totalPathLength := 600, aspectRatioQ := 3, isWordmark := true }

/-- Input for the witness of the amended C9 claim. -/
def c9winput : LogoInput :=
  { baseUrl := "https://x.com", origin := "https://x.com",
    brandAnchors := [{ svgs := [{ geometry := c9wgeom, html := some "<svg/>" }] }] }

/-- Witness for `brand_anchor_wordmark_amended` at a concrete input. -/
theorem brand_anchor_wordmark_amended_witness :
    (c9winput.brandAnchors
      = [{ svgs := [{ geometry := c9wgeom, colors := {}, html := some "<svg/>", isInLink := false }], imgs := [] }]) ∧
    c9wgeom.totalPathLength = 600 ∧ c9wgeom.aspectRatioQ = 3 ∧
    c9wgeom.isWordmark = true ∧ 0 ≤ c9wgeom.pathCommands ∧
    build_fingerprint_map c9winput c9wgeom.fingerprint ≤ 1 ∧
    (∃ l : Logo, LogoExtractor.extract c9winput = .ok l ∧ l.found = true ∧
      l.confidence ≥ 3/4 ∧ l.isWordmark = some true) :=
  ⟨rfl, rfl, rfl, rfl, by norm_num [c9wgeom], by with_unfolding_all decide,
   brand_anchor_wordmark_amended c9winput c9wgeom {} (some "<svg/>") false rfl rfl rfl
     rfl (by norm_num [c9wgeom]) (by with_unfolding_all decide)⟩

/-! ## Claim C1: repeated fingerprints are never returned -/

lemma foldl_preserve {σ α : Type _} {P : σ → Prop} {f : σ → α → σ}
    (hf : ∀ s a, P s → P (f s a)) : ∀ (l : List α) (s : σ), P s → P (l.foldl f s) := by
  intro l
  induction l with
  | nil => intro s hs; exact hs
  | cons a r ih => intro s hs; exact ih _ (hf s a hs)

/-- A best-candidate state whose held logo never carries a repeated
fingerprint. -/
def stateSafe (u : String → ℕ) (st : Option Logo × ℚ) : Prop :=
  ∀ l, st.1 = some l → ∀ fp, l.fingerprint = some fp → is_repeated_svg u fp = false

lemma brandAnchorSvgStep_safe (u : String → ℕ) (svg : SvgData) (st : Option Logo × ℚ)
    (hs : stateSafe u st) : stateSafe u (brandAnchorSvgStep u st svg) := by
  unfold brandAnchorSvgStep
  by_cases hrep : is_repeated_svg u svg.geometry.fingerprint = true
  · simpa [hrep] using hs
  · rw [Bool.not_eq_true] at hrep
    simp only [hrep, Bool.false_eq_true, if_false]
    by_cases hsc : calculate_svg_score svg.geometry > st.2
    · intro l hl fp hfp
      rw [if_pos hsc] at hl
      simp only [Option.some.injEq] at hl
      subst hl
      simp only [Option.some.injEq] at hfp
      subst hfp
      exact hrep
    · rw [if_neg hsc]
      exact hs

lemma brandAnchorImgStep_safe (baseUrl : String) (u : String → ℕ) (img : ImgData)
    (st : Option Logo × ℚ) (hs : stateSafe u st) :
    stateSafe u (brandAnchorImgStep baseUrl st img) := by
  unfold brandAnchorImgStep
  by_cases ht : optStrTruthy img.src = true
  · simp only [ht, Bool.not_true, Bool.false_eq_true, if_false]
    by_cases hsc : calculate_image_score img > st.2
    · intro l hl fp hfp
      rw [if_pos hsc] at hl
      simp only [Option.some.injEq] at hl
      subst hl
      simp at hfp
    · rw [if_neg hsc]
      exact hs
  · rw [Bool.not_eq_true] at ht
    simpa [ht] using hs

lemma brandAnchorStep_safe (u : String → ℕ) (baseUrl : String) (st : Option Logo × ℚ)
    (a : BrandAnchor) (hs : stateSafe u st) :
    stateSafe u (brandAnchorStep u baseUrl st a) := by
  unfold brandAnchorStep
  have h1 : stateSafe u (a.svgs.foldl (brandAnchorSvgStep u) st) :=
    foldl_preserve (fun s x hx => brandAnchorSvgStep_safe u x s hx) a.svgs st hs
  by_cases hb : (a.svgs.foldl (brandAnchorSvgStep u) st).2 < 40
  · rw [if_pos hb]
    exact foldl_preserve (fun s x hx => brandAnchorImgStep_safe baseUrl u x s hx)
      a.imgs _ h1
  · rw [if_neg hb]
    exact h1

lemma brand_anchors_fpSafe (inp : LogoInput) (u : String → ℕ) (l : Logo)
    (h : extract_from_brand_anchors inp u = some l) (fp : String)
    (hfp : l.fingerprint = some fp) : is_repeated_svg u fp = false := by
  have hsafe : stateSafe u
      (inp.brandAnchors.foldl (brandAnchorStep u inp.baseUrl) (none, 0)) :=
    foldl_preserve (fun s x hx => brandAnchorStep_safe u inp.baseUrl s x hx)
      inp.brandAnchors (none, 0) (by intro l hl fp hfp; cases hl)
  exact hsafe l h fp hfp

lemma headerSvgStep_safe (u : String → ℕ) (svg : SvgData) (st : Option Logo × ℚ)
    (hs : stateSafe u st) : stateSafe u (headerSvgStep u st svg) := by
  unfold headerSvgStep
  by_cases hrep : is_repeated_svg u svg.geometry.fingerprint = true
  · simpa [hrep] using hs
  · rw [Bool.not_eq_true] at hrep
    simp only [hrep, Bool.false_eq_true, if_false]
    set score := (if !svg.isInLink then calculate_svg_score svg.geometry * (7/10)
      else calculate_svg_score svg.geometry) with hsc
    by_cases hgt : score > st.2
    · intro l hl fp hfp
      rw [if_pos hgt] at hl
      simp only [Option.some.injEq] at hl
      subst hl
      simp only [Option.some.injEq] at hfp
      subst hfp
      exact hrep
    · rw [if_neg hgt]
      exact hs

lemma header_svgs_fpSafe (inp : LogoInput) (u : String → ℕ) (l : Logo)
    (h : extract_from_header_svgs inp u = some l) (fp : String)
    (hfp : l.fingerprint = some fp) : is_repeated_svg u fp = false := by
  have hsafe : stateSafe u (inp.allSvgs.foldl (headerSvgStep u) (none, 0)) :=
    foldl_preserve (fun s x hx => headerSvgStep_safe u x s hx) inp.allSvgs (none, 0)
      (by intro l hl fp hfp; cases hl)
  exact hsafe l h fp hfp

/-- The tier-3 accumulator never holds a logo with a fingerprint. -/
def exceptFpNone (e : Except Unit (Option Logo × ℚ)) : Prop :=
  ∀ st, e = .ok st → ∀ l, st.1 = some l → l.fingerprint = none

lemma headerImageStep_fp_none (origin baseUrl : String) (img : ImgData)
    (e : Except Unit (Option Logo × ℚ)) (he : exceptFpNone e) :
    exceptFpNone (headerImageStep origin baseUrl e img) := by
  intro st hst l hl
  unfold headerImageStep at hst
  cases e with
  | error u => simp [Bind.bind, Except.bind] at hst
  | ok st0 =>
      simp only [Bind.bind, Except.bind] at hst
      by_cases hsc : (if linkIsHome img.linkHref origin
          then calculate_image_score img + 25 else calculate_image_score img) > st0.2
      · rw [if_pos hsc] at hst
        cases hsrc : img.src with
        | none => rw [hsrc] at hst; cases hst
        | some s =>
            rw [hsrc] at hst
            simp only [Except.ok.injEq] at hst
            subst hst
            simp only [Option.some.injEq] at hl
            subst hl
            rfl
      · rw [if_neg hsc] at hst
        simp only [Except.ok.injEq] at hst
        subst hst
        exact he st0 rfl l hl

lemma header_images_fp_none (inp : LogoInput) (ol : Option Logo)
    (h : extract_from_header_images inp = .ok ol) (l : Logo) (hl : ol = some l) :
    l.fingerprint = none := by
  unfold extract_from_header_images at h
  set final := inp.headerImages.foldl (headerImageStep inp.origin inp.baseUrl)
    (Except.ok (none, 0) : Except Unit (Option Logo × ℚ)) with hf
  have hsafe : exceptFpNone final := by
    rw [hf]
    refine foldl_preserve ?_ inp.headerImages (Except.ok (none, 0)) ?_
    · intro s a hx
      exact headerImageStep_fp_none inp.origin inp.baseUrl a s hx
    · intro st hst l hl2
      simp only [Except.ok.injEq] at hst
      subst hst
      cases hl2
  cases hfin : final with
  | error u => rw [hfin] at h; cases h
  | ok st =>
      rw [hfin] at h
      simp only [Except.map, Except.ok.injEq] at h
      subst h
      exact hsafe st hfin l hl

lemma vision_fp_none (inp : LogoInput) (l : Logo)
    (h : vision_fallback inp = some l) : l.fingerprint = none := by
  unfold vision_fallback at h
  split at h
  · cases h
  · cases h
  · split at h
    · simp only [Option.some.injEq] at h
      subst h
      rfl
    · cases h

lemma mem_insertDescBy {α : Type _} (lt : α → α → Bool) (x y : α) (l : List α) :
    y ∈ insertDescBy lt x l ↔ y = x ∨ y ∈ l := by
  induction l with
  | nil => simp [insertDescBy]
  | cons a r ih =>
      unfold insertDescBy
      by_cases h : lt a x = true
      · simp only [h, if_true, List.mem_cons]
      · simp only [h, Bool.false_eq_true, if_false, List.mem_cons, ih]
        tauto

lemma mem_sortDescBy {α : Type _} (lt : α → α → Bool) (l : List α) (y : α) :
    y ∈ sortDescBy lt l ↔ y ∈ l := by
  have key : ∀ (l acc : List α),
      y ∈ l.foldl (fun acc x => insertDescBy lt x acc) acc ↔ y ∈ acc ∨ y ∈ l := by
    intro l
    induction l with
    | nil => simp
    | cons a r ih =>
        intro acc
        rw [List.foldl_cons, ih, mem_insertDescBy, List.mem_cons]
        tauto
  rw [sortDescBy, key]
  simp

lemma domAnchorCandidates_svg_safe (u : String → ℕ) (origin : String) (a : DomAnchor)
    (html : String) (pc pl : ℕ) (sc : ℚ) (fp : String)
    (h : DomCandidate.svgC html pc pl sc fp ∈ domAnchorCandidates u origin a) :
    is_repeated_svg u fp = false := by
  rcases hsvg : a.svg with _ | svg
  · simp only [domAnchorCandidates, hsvg] at h
    split at h
    · cases h
    · split at h
      · cases h
      · simp only [List.nil_append] at h
        split at h
        · cases h
        · split at h
          · cases h
          · simp at h
  · simp only [domAnchorCandidates, hsvg] at h
    split at h
    · cases h
    · split at h
      · cases h
      · rw [List.mem_append] at h
        rcases h with h | h
        · split at h
          · cases h
          · rename_i hrep
            simp only [List.mem_singleton, DomCandidate.svgC.injEq] at h
            obtain ⟨-, -, -, -, rfl⟩ := h
            rw [Bool.not_eq_true] at hrep
            exact hrep
        · split at h
          · cases h
          · split at h
            · cases h
            · simp at h

lemma dom_fallback_fpSafe (inp : LogoInput) (u : String → ℕ) (l : Logo)
    (h : fallback_dom_extraction inp u = some l) (fp : String)
    (hfp : l.fingerprint = some fp) : is_repeated_svg u fp = false := by
  simp only [fallback_dom_extraction] at h
  split at h
  · cases h
  · rename_i dom heq
    split at h
    · cases h
    · rename_i html2 pc2 pl2 sc2 fp2 hhead
      simp only [Option.some.injEq] at h
      subst h
      simp only [Option.some.injEq] at hfp
      subst hfp
      have hmem : DomCandidate.svgC html2 pc2 pl2 sc2 fp2 ∈
          sortDescBy (fun a b => decide (domCandidateScore a < domCandidateScore b))
            (dom.anchors.flatMap (domAnchorCandidates u inp.origin)) :=
        List.mem_of_mem_head? (by rw [hhead]; exact rfl)
      rw [mem_sortDescBy, List.mem_flatMap] at hmem
      obtain ⟨a, -, hc⟩ := hmem
      exact domAnchorCandidates_svg_safe u inp.origin a _ _ _ _ _ hc
    · rename_i hhead
      simp only [Option.some.injEq] at h
      subst h
      cases hfp

lemma tierGate_some {ol : Option Logo} {thr : ℚ} (h : tierGate ol thr = true) :
    ∃ lg, ol = some lg ∧ lg.found = true := by
  cases ol with
  | none => simp [tierGate] at h
  | some lg =>
      simp only [tierGate, Bool.and_eq_true] at h
      exact ⟨lg, rfl, h.1⟩

lemma logoFoundB_some {ol : Option Logo} (h : logoFoundB ol = true) :
    ∃ lg, ol = some lg ∧ lg.found = true := by
  cases ol with
  | none => simp [logoFoundB] at h
  | some lg => exact ⟨lg, rfl, h⟩

lemma tier5Run_fpSafe (inp : LogoInput) (tr : List ℕ) (l : Logo) (tr2 : List ℕ)
    (h : tier5Run inp tr = .ok (l, tr2)) (fp : String) (hfp : l.fingerprint = some fp) :
    False := by
  simp only [tier5Run] at h
  split at h
  · simp only [Except.ok.injEq, Prod.mk.injEq] at h
    rw [← h.1] at hfp
    cases hfp
  · split at h
    · rename_i hf
      obtain ⟨lg, hlg, -⟩ := logoFoundB_some hf
      rw [hlg] at h
      simp only [Option.getD_some, Except.ok.injEq, Prod.mk.injEq] at h
      rw [← h.1] at hfp
      rw [vision_fp_none inp lg hlg] at hfp
      cases hfp
    · simp only [Except.ok.injEq, Prod.mk.injEq] at h
      rw [← h.1] at hfp
      cases hfp

lemma tier4Run_fpSafe (inp : LogoInput) (u : String → ℕ) (logo : Option Logo)
    (tr : List ℕ) (l : Logo) (tr2 : List ℕ)
    (h : tier4Run inp u logo tr = .ok (l, tr2)) (fp : String)
    (hfp : l.fingerprint = some fp) : is_repeated_svg u fp = false := by
  simp only [tier4Run] at h
  split at h
  · split at h
    · rename_i hf
      obtain ⟨lg, hlg, -⟩ := logoFoundB_some hf
      rw [hlg] at h
      simp only [Option.getD_some, Except.ok.injEq, Prod.mk.injEq] at h
      rw [← h.1] at hfp
      exact dom_fallback_fpSafe inp u lg hlg fp hfp
    · exact (tier5Run_fpSafe inp _ l tr2 h fp hfp).elim
  · exact (tier5Run_fpSafe inp _ l tr2 h fp hfp).elim

lemma tier3Run_fpSafe (inp : LogoInput) (u : String → ℕ) (logo : Option Logo)
    (tr : List ℕ) (l : Logo) (tr2 : List ℕ)
    (h : tier3Run inp u logo tr = .ok (l, tr2)) (fp : String)
    (hfp : l.fingerprint = some fp) : is_repeated_svg u fp = false := by
  simp only [tier3Run] at h
  split at h
  · split at h
    · cases h
    · rename_i logo3 heq3
      split at h
      · rename_i hf
        obtain ⟨lg, hlg, -⟩ := logoFoundB_some hf
        rw [hlg] at h
        simp only [Option.getD_some, Except.ok.injEq, Prod.mk.injEq] at h
        rw [← h.1] at hfp
        rw [header_images_fp_none inp logo3 heq3 lg hlg] at hfp
        cases hfp
      · exact tier4Run_fpSafe inp u logo3 _ l tr2 h fp hfp
  · exact tier4Run_fpSafe inp u logo _ l tr2 h fp hfp

lemma tier2Run_fpSafe (inp : LogoInput) (u : String → ℕ) (logo : Option Logo)
    (tr : List ℕ) (l : Logo) (tr2 : List ℕ)
    (h : tier2Run inp u logo tr = .ok (l, tr2)) (fp : String)
    (hfp : l.fingerprint = some fp) : is_repeated_svg u fp = false := by
  simp only [tier2Run] at h
  split at h
  · split at h
    · rename_i hf
      obtain ⟨lg, hlg, -⟩ := tierGate_some hf
      rw [hlg] at h
      simp only [Option.getD_some, Except.ok.injEq, Prod.mk.injEq] at h
      rw [← h.1] at hfp
      exact header_svgs_fpSafe inp u lg hlg fp hfp
    · exact tier3Run_fpSafe inp u _ _ l tr2 h fp hfp
  · exact tier3Run_fpSafe inp u logo _ l tr2 h fp hfp

/-- The usage-map invariant used below: the empty fingerprint is never
counted. -/
def fpMapZero (u : String → ℕ) : Prop := u "" = 0

lemma bumpFp_keeps_zero (u : String → ℕ) (fp : String) (hu : fpMapZero u) :
    fpMapZero (bumpFp u fp) := by
  unfold fpMapZero at hu ⊢
  unfold bumpFp
  by_cases he : fp = ""
  · simp [he, hu]
  · simp only [he, if_false]
    rw [if_neg (fun hc => he hc.symm)]
    exact hu

lemma build_fingerprint_map_empty (inp : LogoInput) :
    build_fingerprint_map inp "" = 0 := by
  have h1 : fpMapZero (inp.brandAnchors.foldl
      (fun u a => a.svgs.foldl (fun u s => bumpFp u s.geometry.fingerprint) u)
      (fun _ => 0)) := by
    refine foldl_preserve ?_ inp.brandAnchors _ rfl
    intro u a hu
    refine foldl_preserve ?_ a.svgs u hu
    intro v svg hv
    exact bumpFp_keeps_zero v _ hv
  have h2 : fpMapZero (inp.allSvgs.foldl (fun u s => bumpFp u s.geometry.fingerprint)
      (inp.brandAnchors.foldl
        (fun u a => a.svgs.foldl (fun u s => bumpFp u s.geometry.fingerprint) u)
        (fun _ => 0))) := by
    refine foldl_preserve ?_ inp.allSvgs _ h1
    intro u svg hu
    exact bumpFp_keeps_zero u _ hu
  cases hs : inp.soup with
  | none => simp only [build_fingerprint_map, hs]; exact h2
  | some dom =>
      simp only [build_fingerprint_map, hs]
      refine foldl_preserve ?_ dom.svgs _ h2
      intro u svg hu
      exact bumpFp_keeps_zero u _ hu

lemma le_one_of_not_repeated (inp : LogoInput) (fp : String)
    (h : is_repeated_svg (build_fingerprint_map inp) fp = false) :
    build_fingerprint_map inp fp ≤ 1 := by
  unfold is_repeated_svg at h
  by_cases he : fp = ""
  · subst he
    rw [build_fingerprint_map_empty]
    omega
  · rw [if_neg he] at h
    simp only [decide_eq_false_iff_not, not_lt] at h
    omega

/-- Claim C1.  Whenever `extract` succeeds and returns a candidate carrying
a vector fingerprint (tiers 1, 2 and 4; raster and vision candidates carry
none), that fingerprint occurs at most once in the fingerprint usage map
built over all vector shapes on the page: a fingerprint occurring twice or
more is never selected in any tier. -/
theorem repeated_fingerprint_never_selected (inp : LogoInput) (l : Logo) (fp : String)
    (h : LogoExtractor.extract inp = .ok l) (hfp : l.fingerprint = some fp) :
    build_fingerprint_map inp fp ≤ 1 := by
  have hex : ∃ tr, extractTrace inp = .ok (l, tr) := by
    rw [LogoExtractor.extract] at h
    cases het : extractTrace inp with
    | error u => rw [het] at h; cases h
    | ok p =>
        rw [het] at h
        simp only [Except.map, Except.ok.injEq] at h
        exact ⟨p.2, by subst h; rfl⟩
  obtain ⟨tr, ht⟩ := hex
  refine le_one_of_not_repeated inp fp ?_
  simp only [extractTrace] at ht
  split at ht
  · rename_i hg
    obtain ⟨lg, hlg, -⟩ := tierGate_some hg
    rw [hlg] at ht
    simp only [Option.getD_some, Except.ok.injEq, Prod.mk.injEq] at ht
    rw [← ht.1] at hfp
    exact brand_anchors_fpSafe inp _ lg hlg fp hfp
  · exact tier2Run_fpSafe inp _ _ _ l tr ht fp hfp

/-- Witness for `repeated_fingerprint_never_selected` on the concrete
brand-anchor input `c9winput`, whose returned logo carries fingerprint
`"fpw"`. -/
theorem repeated_fingerprint_never_selected_witness :
    (∃ l : Logo, LogoExtractor.extract c9winput = .ok l ∧
      l.fingerprint = some "fpw" ∧ build_fingerprint_map c9winput "fpw" ≤ 1) := by
  have hok : LogoExtractor.extract c9winput = .ok
      { found := true, type := some "inline_svg", svg := some "<svg/>", url := none,
        color := none, confidence := 3/4, source := "brand_anchor_svg",
        isWordmark := some true,
        complexity := some { path_count := 0, path_length := 600, aspectRatioQ := 3 },
        fingerprint := some "fpw" } := by
    with_unfolding_all decide
  exact ⟨_, hok, rfl, repeated_fingerprint_never_selected c9winput _ "fpw" hok rfl⟩

/-! ## `api/routes.py`: the merge engine

`extract_with_llm` returns a dict with keys `success`, `logo_url`,
`logo_type`, `logo_confidence`, `primary_color`, `secondary_color`,
`background_color`, `heading_font`, `body_font` (no accent field);
`ExternalHint` is modelled accordingly.  `logoConfidence = none` models a
missing `logo_confidence` key. -/

/-- The external hint object consumed by the merge functions. -/
structure LlmResult where
  success : Bool := false
  logoUrl : Option String := none
  logoType : Option String := none
  logoConfidence : Option ℚ := none
  primaryColor : Option String := none
  secondaryColor : Option String := none
  backgroundColor : Option String := none
  headingFont : Option String := none
  bodyFont : Option String := none
deriving DecidableEq

/-- Embedding of `routes.verify_and_merge_logo`. -/
def verify_and_merge_logo (prog : Logo) (llm : LlmResult) (_baseUrl : String) : Logo :=
  let llmLogoUrl : Option String := if llm.success then llm.logoUrl else none
  if prog.found && prog.confidence > 3/10 then prog
  else
    let useLlm : Option Logo :=
      match llmLogoUrl with
      | some u =>
          if !u.data.isEmpty && !pyIn "favicon" (pyLower u) then
            some { found := true,
                   type := some (if pyIn ".svg" (pyLower u) then "svg" else "image"),
                   svg := none, url := some (.direct u), color := none,
                   confidence := llm.logoConfidence.getD (3/5), source := "llm" }
          else none
      | none => none
    match useLlm with
    | some lg => lg
    | none => if prog.found then prog else notFoundLogo

/-- Output record of `routes.verify_and_merge_colors`. -/
structure MergedColors where
  primary : Option String := none
  secondary : Option String := none
  background : Option String := none
  accent : Option String := none
  neutrals : List String := []
  all_colors : List (String × ℕ) := []
  primary_source : String := "none"
  secondary_source : String := "none"
  background_source : String := "none"
deriving DecidableEq

/-- Python's `a or b` on optional strings (`None` and `""` are falsy). -/
def pyOrOpt (a b : Option String) : Option String :=
  if optStrTruthy a then a else b

/-- Embedding of `routes.verify_and_merge_colors`. -/
def verify_and_merge_colors (prog : ColorsResult) (llm : LlmResult) : MergedColors :=
  { primary := pyOrOpt prog.primary llm.primaryColor
    secondary := pyOrOpt prog.secondary llm.secondaryColor
    background := pyOrOpt (pyOrOpt prog.background llm.backgroundColor) (some "#ffffff")
    accent := prog.accent
    neutrals := prog.neutrals
    all_colors := prog.all_colors
    primary_source :=
      if optStrTruthy prog.primary then "programmatic"
      else if optStrTruthy llm.primaryColor then "llm" else "none"
    secondary_source :=
      if optStrTruthy prog.secondary then "programmatic"
      else if optStrTruthy llm.secondaryColor then "llm" else "none"
    background_source :=
      if optStrTruthy prog.background then "programmatic"
      else if optStrTruthy llm.backgroundColor then "llm" else "default" }

/-! ## Claim C3: the logo merge -/

/-- Claim C3.  The four-way case analysis of the logo merge: a programmatic
candidate found above confidence 0.3 wins outright; otherwise a successful
hint URL that is nonempty and avoids "favicon" is adopted at the hint's
confidence (0.6 when unspecified); otherwise any found programmatic
candidate is returned; otherwise the not-found descriptor at confidence 0. -/
theorem merge_logo_cases (prog : Logo) (llm : LlmResult) (b : String) (u : String) :
    (prog.found = true → prog.confidence > 3/10 →
      verify_and_merge_logo prog llm b = prog) ∧
    ((prog.found = false ∨ prog.confidence ≤ 3/10) →
      llm.success = true → llm.logoUrl = some u → u ≠ "" →
      pyIn "favicon" (pyLower u) = false →
      verify_and_merge_logo prog llm b =
        { found := true,
          type := some (if pyIn ".svg" (pyLower u) then "svg" else "image"),
          svg := none, url := some (.direct u), color := none,
          confidence := llm.logoConfidence.getD (3/5), source := "llm" }) ∧
    ((prog.found = false ∨ prog.confidence ≤ 3/10) →
      (∀ v, (if llm.success then llm.logoUrl else none) = some v →
        v = "" ∨ pyIn "favicon" (pyLower v) = true) →
      prog.found = true →
      verify_and_merge_logo prog llm b = prog) ∧
    ((prog.found = false ∨ prog.confidence ≤ 3/10) →
      (∀ v, (if llm.success then llm.logoUrl else none) = some v →
        v = "" ∨ pyIn "favicon" (pyLower v) = true) →
      prog.found = false →
      verify_and_merge_logo prog llm b = notFoundLogo ∧ notFoundLogo.confidence = 0) := by
  have hlow : ∀ (hl : prog.found = false ∨ prog.confidence ≤ 3/10),
      (prog.found && decide (prog.confidence > 3/10)) = false := by
    intro hl
    rcases hl with hf | hc
    · simp [hf]
    · simp only [Bool.and_eq_false_iff, decide_eq_false_iff_not, not_lt]
      right
      exact hc
  refine ⟨?_, ?_, ?_, ?_⟩
  · intro h2 h3
    unfold verify_and_merge_logo
    rw [if_pos (by simp [h2, h3])]
  · intro h1 hsucc hurl hne hfav
    unfold verify_and_merge_logo
    rw [if_neg (by rw [hlow h1]; simp)]
    simp only [hsucc, if_true, hurl]
    have hne2 : u.data.isEmpty = false := by
      cases u with
      | mk d =>
          cases d with
          | nil => exact absurd rfl hne
          | cons a t => rfl
    rw [if_pos (by rw [hne2, hfav]; rfl)]
  · intro h1 hno hfound
    unfold verify_and_merge_logo
    rw [if_neg (by rw [hlow h1]; simp)]
    cases hurl : (if llm.success then llm.logoUrl else none) with
    | none => simp [hfound]
    | some v =>
        rcases hno v hurl with hv | hv
        · subst hv
          simp [hfound]
        · simp [hv, hfound]
  · intro h1 hno hfound
    refine ⟨?_, rfl⟩
    unfold verify_and_merge_logo
    rw [if_neg (by rw [hlow h1]; simp)]
    cases hurl : (if llm.success then llm.logoUrl else none) with
    | none => simp [hfound]
    | some v =>
        rcases hno v hurl with hv | hv
        · subst hv
          simp [hfound]
        · simp [hv, hfound]

/-- Witness for `merge_logo_cases`: one concrete instance per merge case. -/
theorem merge_logo_cases_witness :
    verify_and_merge_logo { found := true, confidence := 1/2, source := "header_svg" }
        { success := true, logoUrl := some "https://a/favicon.ico" } "b"
      = { found := true, confidence := 1/2, source := "header_svg" } ∧
    verify_and_merge_logo notFoundLogo
        { success := true, logoUrl := some "https://a/logo.svg" } "b"
      = { found := true, type := some "svg", svg := none,
          url := some (.direct "https://a/logo.svg"), color := none,
          confidence := 3/5, source := "llm" } ∧
    verify_and_merge_logo { found := true, confidence := 1/5, source := "dom_fallback_img" }
        { success := true, logoUrl := some "https://a/favicon.ico" } "b"
      = { found := true, confidence := 1/5, source := "dom_fallback_img" } ∧
    (verify_and_merge_logo notFoundLogo {} "b" = notFoundLogo ∧
      notFoundLogo.confidence = 0) := by
  refine ⟨?_, ?_, ?_, ?_⟩
  · exact (merge_logo_cases _ _ "b" "u").1 rfl (by norm_num)
  · refine (merge_logo_cases _ _ "b" "https://a/logo.svg").2.1 ?_ rfl rfl ?_ ?_
    · left
      rfl
    · decide
    · with_unfolding_all decide
  · refine (merge_logo_cases _ _ "b" "u").2.2.1 ?_ ?_ rfl
    · right
      norm_num
    · intro v hv
      simp only [if_true, Option.some.injEq] at hv
      subst hv
      right
      with_unfolding_all decide
  · refine (merge_logo_cases _ _ "b" "u").2.2.2 ?_ ?_ rfl
    · left
      rfl
    · intro v hv
      simp at hv

/-! ## Claim C4: the color merge -/

/-- Specification-side first-non-null choice. -/
def optOr (a b : Option String) : Option String :=
  match a with
  | some v => some v
  | none => b

lemma pyOrOpt_eq_optOr (a b : Option String) (ha : a ≠ some "") :
    pyOrOpt a b = optOr a b := by
  cases a with
  | none => rfl
  | some v =>
      cases hv : v with
      | mk d =>
          cases d with
          | nil => exact absurd (by rw [hv]) ha
          | cons c t => subst hv; rfl

/-- Claim C4.  Field-wise color merge: each merged color equals the
programmatic value when non-null, else the hint's value when non-null, else
the documented default (`#ffffff` for background) or null; the hint carries
no accent, so accent is the programmatic value; in particular a programmatic
primary always beats a hint primary. -/
theorem merge_colors_fieldwise (prog : ColorsResult) (llm : LlmResult) (v w : String)
    (hp : prog.primary ≠ some "") (hs : prog.secondary ≠ some "")
    (hb : prog.background ≠ some "") (hlb : llm.backgroundColor ≠ some "") :
    (verify_and_merge_colors prog llm).primary = optOr prog.primary llm.primaryColor ∧
    (verify_and_merge_colors prog llm).secondary
      = optOr prog.secondary llm.secondaryColor ∧
    (verify_and_merge_colors prog llm).background
      = optOr prog.background (optOr llm.backgroundColor (some "#ffffff")) ∧
    (verify_and_merge_colors prog llm).accent = prog.accent ∧
    (prog.primary = some v → llm.primaryColor = some w →
      (verify_and_merge_colors prog llm).primary = some v) := by
  refine ⟨?_, ?_, ?_, rfl, ?_⟩
  · exact pyOrOpt_eq_optOr _ _ hp
  · exact pyOrOpt_eq_optOr _ _ hs
  · show pyOrOpt (pyOrOpt prog.background llm.backgroundColor) (some "#ffffff")
      = optOr prog.background (optOr llm.backgroundColor (some "#ffffff"))
    rw [pyOrOpt_eq_optOr _ _ hb]
    cases hbg : prog.background with
    | some x => simp [optOr, pyOrOpt_eq_optOr _ _ (hbg ▸ hb)]
    | none =>
        simp only [optOr]
        rw [pyOrOpt_eq_optOr _ _ hlb]
        cases llm.backgroundColor with
        | none => rfl
        | some y => rfl
  · intro hpv hlw
    show pyOrOpt prog.primary llm.primaryColor = some v
    rw [pyOrOpt_eq_optOr _ _ hp, hpv]
    rfl

/-- Witness for `merge_colors_fieldwise` at concrete values. -/
theorem merge_colors_fieldwise_witness :
    (verify_and_merge_colors
        { primary := some "#112233", background := none, accent := some "#445566" }
        { primaryColor := some "#aabbcc", backgroundColor := some "#ddeeff" }).primary
      = some "#112233" ∧
    (verify_and_merge_colors
        { primary := some "#112233", background := none, accent := some "#445566" }
        { primaryColor := some "#aabbcc", backgroundColor := some "#ddeeff" }).background
      = some "#ddeeff" ∧
    (verify_and_merge_colors
        { primary := some "#112233", background := none, accent := some "#445566" }
        { primaryColor := some "#aabbcc", backgroundColor := some "#ddeeff" }).accent
      = some "#445566" := by
  have h := merge_colors_fieldwise
    { primary := some "#112233", background := none, accent := some "#445566" }
    { primaryColor := some "#aabbcc", backgroundColor := some "#ddeeff" }
    "#112233" "#aabbcc" (by decide) (by decide) (by decide) (by decide)
  exact ⟨h.2.2.2.2 rfl rfl, by rw [h.2.2.1]; rfl, h.2.2.2.1⟩

/-! ## `extractors/typography.py`: data and matchers

The extractor shares the `CssBlock` model: `parsed = none` models a
`cssutils` parse failure, which for typography falls back to the regex scan
of the raw text.  Python's `set` of google fonts is modelled as an
insertion-ordered duplicate-free list (CPython iterates a string set in a
hash-dependent order; every concrete statement below involves at most one
element, where the order is immaterial). -/

/-- The `SYSTEM_FONTS` deny-list of `typography.py`. -/
def SYSTEM_FONTS : List String :=
  ["system-ui", "-apple-system", "blinkmacsystemfont", "segoe ui",
   "roboto", "helvetica", "arial", "sans-serif", "serif", "monospace",
   "helvetica neue", "times new roman", "times", "georgia", "courier",
   "courier new", "lucida console", "lucida sans", "verdana", "tahoma",
   "trebuchet ms", "impact", "comic sans ms", "ui-sans-serif", "ui-serif",
   "ui-monospace", "inherit", "initial", "unset", "revert"]

/-- The `ICON_FONTS` deny-list of `typography.py`. -/
def ICON_FONTS : List String :=
  ["fontawesome", "font awesome", "material icons", "material-icons",
   "ionicons", "glyphicons", "icomoon", "feather", "webflow-icons",
   "icon", "icons", "fa", "fas", "far", "fab"]

/-- Quote characters stripped from font names (`strip('"\'')`). -/
def fontQuoteChars : List Char := ['"', Char.ofNat 39]

/-- Python `value.replace(sub, repl)`, non-overlapping left-to-right. -/
def pyReplaceAux (sub repl : List Char) : ℕ → List Char → List Char
  | _, [] => []
  | 0, l => l
  | fuel + 1, c :: rest =>
      if sub.isPrefixOf (c :: rest) then
        repl ++ pyReplaceAux sub repl fuel ((c :: rest).drop sub.length)
      else c :: pyReplaceAux sub repl fuel rest

/-- Python `replace` on character lists (`sub` nonempty at both call sites). -/
def pyReplaceL (sub repl l : List Char) : List Char := pyReplaceAux sub repl l.length l

/-- Splitter for `re.split(r',\s*', value)`. -/
def splitCommaWsAux (cur : List Char) : ℕ → List Char → List (List Char)
  | _, [] => [cur.reverse]
  | 0, l => [cur.reverse ++ l]
  | fuel + 1, c :: rest =>
      if c = ',' then cur.reverse :: splitCommaWsAux [] fuel (rest.dropWhile isPyWs)
      else splitCommaWsAux (c :: cur) fuel rest

/-- `re.split(r',\s*', value)` on a character list. -/
def splitCommaWs (l : List Char) : List (List Char) := splitCommaWsAux [] l.length l

/-- Embedding of `TypographyExtractor._parse_font_list`: split on comma,
strip whitespace then quotes, drop empties. -/
def parse_font_list (value : String) : List String :=
  (splitCommaWs value.data).filterMap fun part =>
    let font := pyStripCharsL fontQuoteChars (pyStripL part)
    if font.isEmpty then none else some ⟨font⟩

/-- Embedding of `TypographyExtractor._classify_selector`. -/
def classify_selector (selector : String) : String :=
  let s := pyLower selector
  if ["h1", "h2", "h3", "h4", "h5", "h6", ".heading", ".title", ".headline"].any
      (fun x => pyIn x s) then "heading"
  else if ["body", "p", ".text", ".content", ".paragraph", "html"].any
      (fun x => pyIn x s) then "body"
  else "body"

/-- The filter chain of `_process_font_family`: not a system font, not an
icon font (by membership or substring), not a `var(` reference. -/
def fontKept (f : String) : Bool :=
  let fl := pyLower f
  !(SYSTEM_FONTS.contains fl) &&
  !(ICON_FONTS.contains fl || ICON_FONTS.any fun icon => pyIn icon fl) &&
  !("var(".data.isPrefixOf f.data)

/-- Match of `(\d+(?:px|em|rem|pt|%))\s+(.+)` at the current position,
returning group 2. -/
def matchFontSizeAt (l : List Char) : Option (List Char) := do
  let (_, rest) ← takeDigits l
  let rest ←
    if "px".data.isPrefixOf rest then some (rest.drop 2)
    else if "em".data.isPrefixOf rest then some (rest.drop 2)
    else if "rem".data.isPrefixOf rest then some (rest.drop 3)
    else if "pt".data.isPrefixOf rest then some (rest.drop 2)
    else if "%".data.isPrefixOf rest then some (rest.drop 1)
    else none
  let ws := rest.takeWhile isPyWs
  if ws.isEmpty then none
  else
    let tail := rest.drop ws.length
    let grp := tail.takeWhile (fun c => !(c = '\n'))
    if grp.isEmpty then none else some grp

/-- `re.search` of the font-shorthand size pattern: leftmost match wins. -/
def searchFontSize : List Char → Option (List Char)
  | [] => none
  | c :: rest =>
      match matchFontSizeAt (c :: rest) with
      | some g => some g
      | none => searchFontSize rest

/-- Match of the regex-fallback pattern `font-family\s*:\s*([^;]+)`
(`re.IGNORECASE`) at the current position. -/
def matchFontFamilyAt (l : List Char) : Option (List Char × List Char) := do
  let l ← stripCI "font-family".data l
  let l := skipWs l
  let l ← expectChar ':' l
  let l := skipWs l
  let grp := l.takeWhile (fun c => !(c = ';'))
  if grp.isEmpty then none else some (grp, l.drop grp.length)

/-- Scanner for `re.findall(r'font-family\s*:\s*([^;]+)', ...)`. -/
def fontFamilyScanAux : ℕ → List Char → List (List Char)
  | 0, _ => []
  | _, [] => []
  | fuel + 1, c :: rest =>
      match matchFontFamilyAt (c :: rest) with
      | some (g, l2) => g :: fontFamilyScanAux fuel l2
      | none => fontFamilyScanAux fuel rest

/-- All regex-fallback `font-family` declaration values of a raw block. -/
def fontFamilyScan (s : String) : List (List Char) :=
  fontFamilyScanAux s.data.length s.data

/-- Match of the Google-Fonts URL pattern
`fonts\.googleapis\.com/css2?\?family=([^&"\'\)]+)` at the current
position. -/
def matchGoogleAt (l : List Char) : Option (List Char × List Char) := do
  let l ←
    if "fonts.googleapis.com/css".data.isPrefixOf l then some (l.drop 24) else none
  let l ←
    match l with
    | '2' :: r => if "?family=".data.isPrefixOf r then some (r.drop 8) else none
    | r => if "?family=".data.isPrefixOf r then some (r.drop 8) else none
  let grp := l.takeWhile
    (fun c => !(c = '&' || c = '"' || c = Char.ofNat 39 || c = ')'))
  if grp.isEmpty then none else some (grp, l.drop grp.length)

/-- Scanner for the Google-Fonts URL pattern over the head markup. -/
def googleScanAux : ℕ → List Char → List (List Char)
  | 0, _ => []
  | _, [] => []
  | fuel + 1, c :: rest =>
      match matchGoogleAt (c :: rest) with
      | some (g, l2) => g :: googleScanAux fuel l2
      | none => googleScanAux fuel rest

/-- All `family=` query captures in the head markup. -/
def googleScan (s : String) : List (List Char) :=
  googleScanAux s.data.length s.data

/-- Characters of the class `[A-Za-z\s]`. -/
def isAlphaWs (c : Char) : Bool :=
  isAsciiLowerAlpha c || isAsciiUpperAlpha c || isPyWs c

/-- Match of `([A-Za-z\s]+)(?::|;|$)` at the current position: a maximal
letters-and-spaces run followed by `:`, `;` or the end of the string. -/
def matchFontNameAt (l : List Char) : Option (List Char × List Char) :=
  let run := l.takeWhile isAlphaWs
  if run.isEmpty then none
  else
    match l.drop run.length with
    | [] => some (run, [])
    | c :: rest2 => if c = ':' || c = ';' then some (run, rest2) else none

/-- Scanner for `re.findall(r'([A-Za-z\s]+)(?::|;|$)', decoded)`. -/
def fontNameScanAux : ℕ → List Char → List (List Char)
  | 0, _ => []
  | _, [] => []
  | fuel + 1, c :: rest =>
      match matchFontNameAt (c :: rest) with
      | some (g, l2) => g :: fontNameScanAux fuel l2
      | none => fontNameScanAux fuel rest

/-- All font-name captures of a decoded `family=` value. -/
def fontNameScan (l : List Char) : List (List Char) :=
  fontNameScanAux l.length l

/-! ## `extractors/typography.py`: the extractor -/

/-- One recorded typography occurrence: an externally-declared (google)
font name, a filtered `font-family` font with its selector, or a
regex-fallback font (no selector context). -/
inductive TypoEvent
  | google (f : String)
  | family (selector : String) (f : String)
  | fromRegex (f : String)
deriving DecidableEq

/-- Events of `_process_font_family` for one declaration: the parsed list,
restricted to fonts passing the deny-list filters. -/
def processFontFamilyEvents (selector value : String) : List TypoEvent :=
  (parse_font_list value).filterMap fun font =>
    if fontKept font then some (.family selector font) else none

/-- Events of `_process_font_shorthand`: strip the leading size token of the
first comma part, then process the rebuilt family list. -/
def fontShorthandEvents (selector value : String) : List TypoEvent :=
  match value.data.splitOn ',' with
  | [] => []
  | first :: rest =>
      match searchFontSize (pyStripL first) with
      | none => []
      | some fontName =>
          processFontFamilyEvents selector
            ⟨pyStripCharsL fontQuoteChars (pyStripL fontName)
              ++ ',' :: List.intercalate [','] rest⟩

/-- Events of `_regex_extract` for one raw block: system and `var(` filtered,
icon fonts NOT filtered, no selector context. -/
def regexExtractTypoEvents (text : String) : List TypoEvent :=
  (fontFamilyScan text).flatMap fun grp =>
    (parse_font_list ⟨grp⟩).filterMap fun font =>
      if !(SYSTEM_FONTS.contains (pyLower font)) && !("var(".data.isPrefixOf font.data)
      then some (.fromRegex font) else none

/-- Events of `_parse_css` for one block: structured when the external parse
succeeded, else the regex fallback (the `except` branch). -/
def parseTypoCssEvents (b : CssBlock) : List TypoEvent :=
  match b.parsed with
  | some rules =>
      rules.flatMap fun r =>
        r.props.flatMap fun pr =>
          if pr.1 = "font-family" then processFontFamilyEvents r.selector pr.2
          else if pr.1 = "font" then fontShorthandEvents r.selector pr.2
          else []
  | none => regexExtractTypoEvents b.text

/-- Events of `_extract_google_fonts`: every `family=` capture, decoded by
replacing `+` and `%20` with spaces, split into font names, stripped. -/
def extractGoogleFontsEvents (html : String) : List TypoEvent :=
  (googleScan html).flatMap fun m =>
    let decoded := pyReplaceL "%20".data [' '] (pyReplaceL "+".data [' '] m)
    (fontNameScan decoded).filterMap fun font =>
      if (pyStripL font).isEmpty then none else some (.google ⟨pyStripL font⟩)

/-- Accumulator state of a `TypographyExtractor` instance. -/
structure TypoState where
  heading_fonts : Tally := []
  body_fonts : Tally := []
  all_fonts : Tally := []
  google_fonts : List String := []
deriving DecidableEq

/-- Add to the google-fonts set (insertion-ordered model). -/
def addSet (s : List String) (f : String) : List String :=
  if s.contains f then s else s ++ [f]

/-- Record one typography event in the state. -/
def applyTypoEvent (st : TypoState) : TypoEvent → TypoState
  | .google f => { st with google_fonts := addSet st.google_fonts f }
  | .family sel f =>
      let st := { st with all_fonts := tallyAdd st.all_fonts f }
      if classify_selector sel = "heading" then
        { st with heading_fonts := tallyAdd st.heading_fonts f }
      else if classify_selector sel = "body" then
        { st with body_fonts := tallyAdd st.body_fonts f }
      else st
  | .fromRegex f => { st with all_fonts := tallyAdd st.all_fonts f }

/-- Event stream of `TypographyExtractor.extract`: google fonts first, then
every block in order (no empty-block filter here). -/
def typoEvents (css : List CssBlock) (html : String) : List TypoEvent :=
  extractGoogleFontsEvents html ++ css.flatMap parseTypoCssEvents

/-- State after the parsing phase. -/
def runTypoState (css : List CssBlock) (html : String) : TypoState :=
  (typoEvents css html).foldl applyTypoEvent {}

/-- Output record of `TypographyExtractor._analyze_fonts`. -/
structure TypoResult where
  heading_font : Option String := none
  body_font : Option String := none
  google_fonts : List String := []
  all_fonts : List (String × ℕ) := []
deriving DecidableEq

/-- Python's `max(d.items(), key=lambda x: x[1])[0]`: the first key with
maximal count. -/
def pyMaxByCount (t : Tally) : Option String :=
  match t with
  | [] => none
  | p :: rest => some ((rest.foldl (fun best q => if q.2 > best.2 then q else best) p).1)

/-- The re-filter applied in `_analyze_fonts` before ranking. -/
def analyzeKept (p : String × ℕ) : Bool :=
  !(SYSTEM_FONTS.contains (pyLower p.1)) && !(ICON_FONTS.contains (pyLower p.1)) &&
  !(ICON_FONTS.any fun icon => pyIn icon (pyLower p.1)) &&
  !("var(".data.isPrefixOf p.1.data)

/-- Combined-tally backfill for the heading slot: the ranking's top entry
fills a missing value. -/
def backfillFirst (cur : Option String) (sorted : Tally) : Option String :=
  match cur, sorted with
  | none, top :: _ => some top.1
  | h, _ => h

/-- Combined-tally backfill for the body slot: the ranking's second entry —
or its only entry — fills a missing value. -/
def backfillSecond (cur : Option String) (sorted : Tally) : Option String :=
  match cur, sorted with
  | none, _ :: r :: _ => some r.1
  | none, [top] => some top.1
  | b, _ => b

/-- Google-fonts backfill for the heading slot: first set entry. -/
def googleFirst (cur : Option String) (gs : List String) : Option String :=
  match cur, gs with
  | none, g :: _ => some g
  | h, _ => h

/-- Google-fonts backfill for the body slot: second entry, or the single
entry. -/
def googleSecond (cur : Option String) (gs : List String) : Option String :=
  match cur, gs with
  | none, [g] => some g
  | none, _ :: g2 :: _ => some g2
  | b, _ => b

/-- Embedding of `TypographyExtractor._analyze_fonts`: per-context maxima,
then the combined-tally backfill (run only when a slot is missing), then the
google-fonts backfill, with the top-10 filtered ranking as `all_fonts`. -/
def analyze_fonts (st : TypoState) : TypoResult :=
  let filtered := st.all_fonts.filter analyzeKept
  let heading := if st.heading_fonts.isEmpty then none else pyMaxByCount st.heading_fonts
  let body := if st.body_fonts.isEmpty then none else pyMaxByCount st.body_fonts
  let doBackfill := heading.isNone || body.isNone
  let sorted_all := sortDescBy (fun a b => a.2 < b.2) filtered
  let heading2 := if doBackfill then backfillFirst heading sorted_all else heading
  let body2 := if doBackfill then backfillSecond body sorted_all else body
  { heading_font := googleFirst heading2 st.google_fonts
    body_font := googleSecond body2 st.google_fonts
    google_fonts := st.google_fonts
    all_fonts := sorted_all.take 10 }

/-- Embedding of `TypographyExtractor.extract`. -/
def TypographyExtractor.extract (css : List CssBlock) (html : String) : TypoResult :=
  analyze_fonts (runTypoState css html)

/-! ## Claim C6: deny-list discipline of the typography output -/

/-- The claim's predicate on an output font name: outside the system
deny-list and containing no icon-font name as a substring. -/
def fontClaimOk (f : String) : Bool :=
  !(SYSTEM_FONTS.contains (pyLower f)) &&
  !(ICON_FONTS.any fun icon => pyIn icon (pyLower f))

lemma claimOk_of_kept (f : String) (h : fontKept f = true) : fontClaimOk f = true := by
  unfold fontKept at h
  unfold fontClaimOk
  simp only [Bool.and_eq_true, Bool.not_eq_true', Bool.or_eq_false_iff] at h
  simp only [Bool.and_eq_true, Bool.not_eq_true']
  exact ⟨h.1.1, h.1.2.2⟩

lemma claimOk_of_analyzeKept (p : String × ℕ) (h : analyzeKept p = true) :
    fontClaimOk p.1 = true := by
  unfold analyzeKept at h
  unfold fontClaimOk
  simp only [Bool.and_eq_true, Bool.not_eq_true'] at h
  simp only [Bool.and_eq_true, Bool.not_eq_true']
  exact ⟨h.1.1.1, h.1.2⟩

lemma typoEvents_family_kept (css : List CssBlock) (html : String) (e : TypoEvent)
    (he : e ∈ typoEvents css html) (sel f : String) (hef : e = .family sel f) :
    fontKept f = true := by
  subst hef
  unfold typoEvents at he
  rw [List.mem_append] at he
  rcases he with he | he
  · unfold extractGoogleFontsEvents at he
    rw [List.mem_flatMap] at he
    obtain ⟨m, -, hm⟩ := he
    rw [List.mem_filterMap] at hm
    obtain ⟨fn, -, hfn⟩ := hm
    by_cases hfe : (pyStripL fn).isEmpty = true
    · rw [if_pos hfe] at hfn
      cases hfn
    · rw [if_neg hfe] at hfn
      cases hfn
  · rw [List.mem_flatMap] at he
    obtain ⟨b, -, hb⟩ := he
    unfold parseTypoCssEvents at hb
    split at hb
    · rw [List.mem_flatMap] at hb
      obtain ⟨r, -, hr⟩ := hb
      rw [List.mem_flatMap] at hr
      obtain ⟨pr, -, hpr⟩ := hr
      have hpf : ∀ s2 v2, TypoEvent.family sel f ∈ processFontFamilyEvents s2 v2 →
          fontKept f = true := by
        intro s2 v2 hmem
        unfold processFontFamilyEvents at hmem
        rw [List.mem_filterMap] at hmem
        obtain ⟨fn, -, hfn⟩ := hmem
        by_cases hk : fontKept fn = true
        · rw [if_pos hk] at hfn
          simp only [Option.some.injEq, TypoEvent.family.injEq] at hfn
          rw [← hfn.2]
          exact hk
        · rw [if_neg hk] at hfn
          cases hfn
      split at hpr
      · exact hpf _ _ hpr
      · split at hpr
        · unfold fontShorthandEvents at hpr
          split at hpr
          · cases hpr
          · split at hpr
            · cases hpr
            · exact hpf _ _ hpr
        · cases hpr
    · unfold regexExtractTypoEvents at hb
      rw [List.mem_flatMap] at hb
      obtain ⟨g, -, hg⟩ := hb
      rw [List.mem_filterMap] at hg
      obtain ⟨fn, -, hfn⟩ := hg
      split at hfn
      · cases hfn
      · cases hfn

/-- Keys of a tally all pass the `_process_font_family` filters. -/
def tallyKeysKept (t : Tally) : Prop := ∀ p ∈ t, fontKept p.1 = true

lemma tallyAdd_keys (t : Tally) (c : String) (p : String × ℕ) (hp : p ∈ tallyAdd t c) :
    p ∈ t ∨ p.1 = c := by
  induction t with
  | nil =>
      simp only [tallyAdd, List.mem_singleton] at hp
      right
      rw [hp]
  | cons q rest ih =>
      unfold tallyAdd at hp
      by_cases hq : q.1 = c
      · rw [if_pos hq] at hp
        rcases List.mem_cons.mp hp with h | h
        · right
          rw [h, hq]
        · left
          exact List.mem_cons_of_mem _ h
      · rw [if_neg hq] at hp
        rcases List.mem_cons.mp hp with h | h
        · left
          rw [h]
          exact List.mem_cons_self _ _
        · rcases ih h with h2 | h2
          · left
            exact List.mem_cons_of_mem _ h2
          · right
            exact h2

lemma fold_typo_kept (es : List TypoEvent)
    (hes : ∀ e ∈ es, ∀ sel f, e = .family sel f → fontKept f = true)
    (st : TypoState) (hst : tallyKeysKept st.heading_fonts ∧ tallyKeysKept st.body_fonts) :
    tallyKeysKept (es.foldl applyTypoEvent st).heading_fonts ∧
    tallyKeysKept (es.foldl applyTypoEvent st).body_fonts := by
  induction es generalizing st with
  | nil => exact hst
  | cons e rest ih =>
      rw [List.foldl_cons]
      refine ih (fun x hx s2 f2 hf2 => hes x (List.mem_cons_of_mem _ hx) s2 f2 hf2) _ ?_
      cases e with
      | google f =>
          simp only [applyTypoEvent]
          exact hst
      | fromRegex f =>
          simp only [applyTypoEvent]
          exact hst
      | family sel f =>
          have hk : fontKept f = true := hes _ (List.mem_cons_self _ _) sel f rfl
          simp only [applyTypoEvent]
          split
          · refine ⟨?_, hst.2⟩
            intro p hp
            rcases tallyAdd_keys _ _ _ hp with h | h
            · exact hst.1 p h
            · rw [h]
              exact hk
          · split
            · refine ⟨hst.1, ?_⟩
              intro p hp
              rcases tallyAdd_keys _ _ _ hp with h | h
              · exact hst.2 p h
              · rw [h]
                exact hk
            · exact hst

lemma foldl_best_mem (l : List (String × ℕ)) (init : String × ℕ) :
    l.foldl (fun best q => if q.2 > best.2 then q else best) init ∈ init :: l := by
  induction l generalizing init with
  | nil => exact List.mem_cons_self _ _
  | cons a r ih =>
      rw [List.foldl_cons]
      by_cases hq : a.2 > init.2
      · rw [if_pos hq]
        rcases List.mem_cons.mp (ih a) with h | h
        · rw [h]
          exact List.mem_cons_of_mem _ (List.mem_cons_self _ _)
        · exact List.mem_cons_of_mem _ (List.mem_cons_of_mem _ h)
      · rw [if_neg hq]
        rcases List.mem_cons.mp (ih init) with h | h
        · rw [h]
          exact List.mem_cons_self _ _
        · exact List.mem_cons_of_mem _ (List.mem_cons_of_mem _ h)

lemma pyMaxByCount_mem (t : Tally) (f : String) (h : pyMaxByCount t = some f) :
    ∃ n, (f, n) ∈ t := by
  cases t with
  | nil => cases h
  | cons p rest =>
      simp only [pyMaxByCount, Option.some.injEq] at h
      refine ⟨(rest.foldl (fun best q => if q.2 > best.2 then q else best) p).2, ?_⟩
      rw [← h]
      exact foldl_best_mem rest p

lemma googleFirst_eq_some (cur : Option String) (gs : List String) (f : String)
    (h : googleFirst cur gs = some f) :
    cur = some f ∨ (cur = none ∧ ∃ t, gs = f :: t) := by
  cases cur with
  | some c =>
      left
      cases gs <;> exact h
  | none =>
      right
      cases gs with
      | nil => cases h
      | cons g t =>
          simp only [googleFirst, Option.some.injEq] at h
          exact ⟨rfl, t, by rw [h]⟩

lemma googleSecond_eq_some (cur : Option String) (gs : List String) (f : String)
    (h : googleSecond cur gs = some f) :
    cur = some f ∨ (cur = none ∧ f ∈ gs) := by
  cases cur with
  | some c =>
      left
      cases gs with
      | nil => exact h
      | cons g t => cases t <;> exact h
  | none =>
      right
      refine ⟨rfl, ?_⟩
      cases gs with
      | nil => cases h
      | cons g t =>
          cases t with
          | nil =>
              simp only [googleSecond, Option.some.injEq] at h
              rw [← h]
              exact List.mem_cons_self _ _
          | cons g2 t2 =>
              simp only [googleSecond, Option.some.injEq] at h
              rw [← h]
              exact List.mem_cons_of_mem _ (List.mem_cons_self _ _)

lemma backfillFirst_eq_some (cur : Option String) (sorted : Tally) (f : String)
    (h : backfillFirst cur sorted = some f) :
    cur = some f ∨ ∃ p ∈ sorted, p.1 = f := by
  cases cur with
  | some c =>
      left
      cases sorted <;> exact h
  | none =>
      right
      cases sorted with
      | nil => cases h
      | cons top t =>
          simp only [backfillFirst, Option.some.injEq] at h
          exact ⟨top, List.mem_cons_self _ _, h⟩

lemma backfillSecond_eq_some (cur : Option String) (sorted : Tally) (f : String)
    (h : backfillSecond cur sorted = some f) :
    cur = some f ∨ ∃ p ∈ sorted, p.1 = f := by
  cases cur with
  | some c =>
      left
      cases sorted with
      | nil => exact h
      | cons top t => cases t <;> exact h
  | none =>
      right
      cases sorted with
      | nil => cases h
      | cons top t =>
          cases t with
          | nil =>
              simp only [backfillSecond, Option.some.injEq] at h
              exact ⟨top, List.mem_cons_self _ _, h⟩
          | cons r t2 =>
              simp only [backfillSecond, Option.some.injEq] at h
              exact ⟨r, List.mem_cons_of_mem _ (List.mem_cons_self _ _), h⟩

lemma ifEmptyMax_eq_some (t : Tally) (f : String)
    (h : (if t.isEmpty then none else pyMaxByCount t) = some f) :
    pyMaxByCount t = some f := by
  by_cases he : t.isEmpty
  · rw [if_pos he] at h
    cases h
  · rw [if_neg he] at h
    exact h

set_option maxHeartbeats 1000000 in
/-- Claim C6, amended.  Provided the head markup yields no externally-linked
(google) font names, every font name the typography extractor outputs — the
`all_fonts` list, the heading font and the body font — is outside the
system-font deny-list and contains no icon-font name as a substring.  (The
counterexample shows the google-fonts backfill path is unfiltered, so the
claim fails without that proviso.) -/
theorem typography_deny_list_amended (css : List CssBlock) (html : String)
    (f : String) (n : ℕ)
    (hg : (TypographyExtractor.extract css html).google_fonts = []) :
    ((f, n) ∈ (TypographyExtractor.extract css html).all_fonts → fontClaimOk f = true) ∧
    ((TypographyExtractor.extract css html).heading_font = some f →
      fontClaimOk f = true) ∧
    ((TypographyExtractor.extract css html).body_font = some f →
      fontClaimOk f = true) := by
  have hgs : (runTypoState css html).google_fonts = [] := by
    simpa only [TypographyExtractor.extract, analyze_fonts] using hg
  have hkept : tallyKeysKept (runTypoState css html).heading_fonts ∧
      tallyKeysKept (runTypoState css html).body_fonts :=
    fold_typo_kept (typoEvents css html)
      (fun e he sel f2 hf2 => typoEvents_family_kept css html e he sel f2 hf2) {}
      ⟨fun p hp => absurd hp (List.not_mem_nil p),
       fun p hp => absurd hp (List.not_mem_nil p)⟩
  have hfilter : ∀ p ∈ sortDescBy (fun a b => a.2 < b.2)
      ((runTypoState css html).all_fonts.filter analyzeKept),
      fontClaimOk p.1 = true := by
    intro p hp
    rw [mem_sortDescBy] at hp
    exact claimOk_of_analyzeKept p (List.of_mem_filter hp)
  have hmaxH : ∀ g : String, pyMaxByCount (runTypoState css html).heading_fonts = some g →
      fontClaimOk g = true := by
    intro g hgmax
    obtain ⟨m, hm⟩ := pyMaxByCount_mem _ g hgmax
    exact claimOk_of_kept g (hkept.1 (g, m) hm)
  have hmaxB : ∀ g : String, pyMaxByCount (runTypoState css html).body_fonts = some g →
      fontClaimOk g = true := by
    intro g hgmax
    obtain ⟨m, hm⟩ := pyMaxByCount_mem _ g hgmax
    exact claimOk_of_kept g (hkept.2 (g, m) hm)
  refine ⟨?_, ?_, ?_⟩
  · intro hmem
    simp only [TypographyExtractor.extract, analyze_fonts] at hmem
    exact hfilter (f, n) (List.mem_of_mem_take hmem)
  · intro hh
    simp only [TypographyExtractor.extract, analyze_fonts, hgs] at hh
    rcases googleFirst_eq_some _ _ _ hh with h2 | ⟨-, t, ht⟩
    · by_cases hc : ((if List.isEmpty (runTypoState css html).heading_fonts = true
            then none else pyMaxByCount (runTypoState css html).heading_fonts).isNone
          || (if List.isEmpty (runTypoState css html).body_fonts = true
            then none else pyMaxByCount (runTypoState css html).body_fonts).isNone) = true
      · rw [if_pos hc] at h2
        rcases backfillFirst_eq_some _ _ _ h2 with h3 | ⟨p, hp, hpf⟩
        · exact hmaxH f (ifEmptyMax_eq_some _ _ h3)
        · rw [← hpf]
          exact hfilter p hp
      · rw [if_neg hc] at h2
        exact hmaxH f (ifEmptyMax_eq_some _ _ h2)
    · cases ht
  · intro hh
    simp only [TypographyExtractor.extract, analyze_fonts, hgs] at hh
    rcases googleSecond_eq_some _ _ _ hh with h2 | ⟨-, hmem⟩
    · by_cases hc : ((if List.isEmpty (runTypoState css html).heading_fonts = true
            then none else pyMaxByCount (runTypoState css html).heading_fonts).isNone
          || (if List.isEmpty (runTypoState css html).body_fonts = true
            then none else pyMaxByCount (runTypoState css html).body_fonts).isNone) = true
      · rw [if_pos hc] at h2
        rcases backfillSecond_eq_some _ _ _ h2 with h3 | ⟨p, hp, hpf⟩
        · exact hmaxB f (ifEmptyMax_eq_some _ _ h3)
        · rw [← hpf]
          exact hfilter p hp
      · rw [if_neg hc] at h2
        exact hmaxB f (ifEmptyMax_eq_some _ _ h2)
    · cases hmem

/-- Head markup of the C6 counterexample: a Google-Fonts link loading the
icon font `Material Icons`. -/
def cex6html : String :=
  "<link href=\"https://fonts.googleapis.com/css2?family=Material+Icons\" rel=\"stylesheet\">"

/-- Counterexample to claim C6 as stated: with no CSS and a head linking
`Material+Icons`, the google-fonts backfill installs "Material Icons" — a
deny-listed icon-font name — as both heading and body font. -/
theorem icon_font_backfill_counterexample :
    (TypographyExtractor.extract [] cex6html).heading_font = some "Material Icons" ∧
    (TypographyExtractor.extract [] cex6html).body_font = some "Material Icons" ∧
    fontClaimOk "Material Icons" = false ∧
    (ICON_FONTS.any fun icon => pyIn icon (pyLower "Material Icons")) = true := by
  refine ⟨by decide, by decide, by decide, by decide⟩

/-- CSS block used by the C6 witness. -/
def cex6block : CssBlock :=
  ⟨"h1\x7bfont-family:\"Inter\", Arial, sans-serif\x7d",
   some [⟨"h1", [("font-family", "\"Inter\", Arial, sans-serif")]⟩]⟩

/-- Witness for `typography_deny_list_amended` on a concrete input. -/
theorem typography_deny_list_amended_witness :
    (TypographyExtractor.extract [cex6block] "").google_fonts = [] ∧
    ((("Inter", 1) ∈ (TypographyExtractor.extract [cex6block] "").all_fonts →
        fontClaimOk "Inter" = true) ∧
     ((TypographyExtractor.extract [cex6block] "").heading_font = some "Inter" →
        fontClaimOk "Inter" = true) ∧
     ((TypographyExtractor.extract [cex6block] "").body_font = some "Inter" →
        fontClaimOk "Inter" = true)) :=
  ⟨by decide, typography_deny_list_amended [cex6block] "" "Inter" 1 (by decide)⟩
